import Mathlib

/-!
Shallow embedding of `docker_push_ssh/cli.py` (the docker-push-ssh workflow).

The program drives external commands (local `podman`, remote `ssh`) and an
HTTP readiness probe.  We model the environment by two oracles:

* `Oracle : Nat → CmdResult` — the result (exit status plus captured output)
  of the i-th blocking command execution of the run, counted in execution
  order;
* `Nat → ProbeResult` — the outcome of the i-th HTTP probe issued by the
  tunnel readiness loop.

Each run is embedded as the list of observable events it produces: command
executions (with the exact executable and argument strings built by the
source), the non-blocking tunnel spawn, the tunnel termination, and the
printed messages.  Every `exec` event also carries the syntactic source
site that issued it, so that claims about particular stages can be stated
without parsing the argv strings back.
-/

namespace DockerPushSsh

/-- Result of one blocking command execution through the process executor:
success flag (`not failed()`) plus the captured stdout/stderr. -/
structure CmdResult where
  ok : Bool
  stdout : String
  stderr : String
  deriving DecidableEq, Repr

/-- Environment oracle: result of the i-th blocking command execution. -/
abbrev Oracle := Nat → CmdResult

/-- Outcome of one HTTP readiness probe (`urllib.request.urlopen`):
either a raised connection error / timeout / HTTP error (all caught by the
`except` clause), or a response carrying a status code. -/
inductive ProbeResult where
  | err : ProbeResult
  | status : Nat → ProbeResult
  deriving DecidableEq, Repr

/-- The retry loop body of `waitForSshTunnelInit`: starting at probe index
`i` with `fuel` iterations left, each iteration first sleeps `delay`, then
probes; a caught exception or a non-200 status consumes the iteration, a
200 status returns success at once.  Returns
`(success, attempts made, total sleep time)`. -/
def waitLoop (probe : Nat → ProbeResult) (delay : Nat) : Nat → Nat → Bool × Nat × Nat
  | _, 0 => (false, 0, 0)
  | i, Nat.succ fuel =>
    match probe i with
    | ProbeResult.err =>
      let r := waitLoop probe delay (i + 1) fuel
      (r.1, r.2.1 + 1, r.2.2 + delay)
    | ProbeResult.status c =>
      if c = 200 then (true, 1, delay)
      else
        let r := waitLoop probe delay (i + 1) fuel
        (r.1, r.2.1 + 1, r.2.2 + delay)

/-- `waitForSshTunnelInit(retries, delay)` from the source: poll
`http://localhost:5000/v2/` until a 200 response, at most `retries` times,
sleeping `delay` before every attempt. -/
def waitForSshTunnelInit (probe : Nat → ProbeResult) (retries : Nat) (delay : Nat) :
    Bool × Nat × Nat :=
  waitLoop probe delay 0 retries

/-- Syntactic source site that issued a command execution. -/
inductive Site where
  | registry | prime | tagging | pushing | pulling | cleanupRegistry | cleanupImage
  deriving DecidableEq, Repr

/-- Observable event of a run. -/
inductive Event where
  | exec : Site → String → List String → Bool → Event
  | spawn : String → List String → Event
  | terminate : Event
  | print : String → Event
  deriving DecidableEq, Repr

/-- The single remote invocation that sets up the ephemeral registry. -/
def registryCmdStr (registryPort : String) : String :=
  "sh -l -c \"podman rm -f docker-push-ssh-registry; " ++
  "podman run -d -v /var/lib/registry:/var/lib/registry " ++
  "--name docker-push-ssh-registry -p 127.0.0.1:" ++ registryPort ++ ":5000 registry\""

/-- The remote priming invocation (pull, tag, push in one shell command). -/
def primeCmdStr (primeImage registryPort : String) : String :=
  "sh -l -c \"podman pull " ++ primeImage ++
  " && podman tag " ++ primeImage ++ " localhost:" ++ registryPort ++ "/" ++ primeImage ++
  " && podman push localhost:" ++ registryPort ++ "/" ++ primeImage ++ "\""

/-- The remote pull-and-retag invocation for one target tag. -/
def pullCmdStr (dockerImageTag registryPort : String) : String :=
  "sh -l -c \"podman pull " ++ "localhost:" ++ registryPort ++ "/" ++ dockerImageTag ++
  " && podman tag localhost:" ++ registryPort ++ "/" ++ dockerImageTag ++ " " ++
  dockerImageTag ++ "\""

/-- The remote cleanup invocation removing the ephemeral registry container. -/
def cleanupCmdStr : String :=
  "sh -l -c \"podman rm -f docker-push-ssh-registry\""

/-- Local forward argument of the ssh tunnel command. -/
def tunnelSpawnArgs (registryPort sshHost : String) : List String :=
  ["-N", "-L", "*:5000:localhost:" ++ registryPort, sshHost]

/-- Diagnostics printed on a command failure: `ERROR`, stdout, stderr. -/
def errorPrints (r : CmdResult) : List Event :=
  [Event.print "ERROR", Event.print r.stdout, Event.print r.stderr]

/-- One iteration of the priming loop. -/
def primeStep (sshHost registryPort : String) (r : CmdResult) (primeImage : String) :
    List Event × Bool :=
  let banner := Event.print ("Priming base image (" ++ primeImage ++ ")")
  let ev := Event.exec Site.prime "ssh" [sshHost, primeCmdStr primeImage registryPort] r.ok
  if r.ok then ([banner, ev], true)
  else ([banner, ev] ++ errorPrints r, false)

/-- One iteration of the tagging loop. -/
def tagStep (r : CmdResult) (dockerImageTag : String) : List Event × Bool :=
  let ev := Event.exec Site.tagging "podman"
    ["tag", dockerImageTag, "localhost:5000/" ++ dockerImageTag] r.ok
  if r.ok then ([ev], true) else ([ev] ++ errorPrints r, false)

/-- One iteration of the pushing loop, with the push-specific remediation
messages on failure. -/
def pushStep (r : CmdResult) (dockerImageTag : String) : List Event × Bool :=
  let ev := Event.exec Site.pushing "podman" ["push", "localhost:5000/" ++ dockerImageTag] r.ok
  if r.ok then
    ([ev, Event.print ("Pushed Image " ++ dockerImageTag ++ " Successfully...")], true)
  else
    ([ev] ++ errorPrints r ++
      [Event.print "Error Pushing Image: Ensure localhost:5000 is added to your insecure registries.",
       Event.print "More Details (OS X): https://stackoverflow.com/questions/32808215/where-to-set-the-insecure-registry-flag-on-mac-os",
       Event.print "More Details (Linux): https://stackoverflow.com/questions/42211380/add-insecure-registry-to-docker"],
     false)

/-- One iteration of the remote pull-and-retag loop. -/
def pullStep (sshHost registryPort : String) (r : CmdResult) (dockerImageTag : String) :
    List Event × Bool :=
  let ev := Event.exec Site.pulling "ssh" [sshHost, pullCmdStr dockerImageTag registryPort] r.ok
  if r.ok then
    ([ev, Event.print ("Pulled Image " ++ dockerImageTag ++ " Successfully...")], true)
  else ([ev] ++ errorPrints r, false)

/-- A per-item stage loop with early exit on the first failure: each item
consumes exactly one oracle slot; returns the emitted events, the next free
oracle index and whether the whole stage succeeded. -/
def runStage {α : Type} (o : Oracle) (step : CmdResult → α → List Event × Bool) :
    Nat → List α → List Event × Nat × Bool
  | k, [] => ([], k, true)
  | k, a :: rest =>
    let s := step (o k) a
    if s.2 then
      let r := runStage o step (k + 1) rest
      (s.1 ++ r.1, r.2.1, r.2.2)
    else (s.1, k + 1, false)

/-- The cleanup loop removing the locally-created retagged image of every
tag; results are ignored. -/
def cleanupTags (o : Oracle) : Nat → List String → List Event × Nat
  | k, [] => ([], k)
  | k, dockerImageTag :: rest =>
    let ev := Event.exec Site.cleanupImage "podman"
      ["image", "rm", "localhost:5000/" ++ dockerImageTag] (o k).ok
    let r := cleanupTags o (k + 1) rest
    (ev :: r.1, r.2)

/-- The `finally` block: print, remove the remote registry container,
terminate the tunnel, remove the local retagged images. -/
def cleanupTrace (o : Oracle) (sshHost : String) (dockerImageTagList : List String)
    (k : Nat) : List Event × Nat :=
  let r := cleanupTags o (k + 1) dockerImageTagList
  (Event.print "Cleaning up..." ::
    Event.exec Site.cleanupRegistry "ssh" [sshHost, cleanupCmdStr] (o k).ok ::
    Event.terminate :: r.1, r.2)

/-- The `try` body of `pushImage`, entered after a successful registry
setup: spawn the tunnel, wait for readiness, then the four per-item stages
with early exit.  Returns emitted events, next free oracle index and the
success flag. -/
def pushBody (o : Oracle) (probe : Nat → ProbeResult) (dockerImageTagList : List String)
    (sshHost : String) (primeImages : Option (List String)) (registryPort : String)
    (k : Nat) : List Event × Nat × Bool :=
  let ev1 : List Event :=
    [Event.print "Establishing SSH Tunnel...",
     Event.spawn "ssh" (tunnelSpawnArgs registryPort sshHost),
     Event.print "Waiting for SSH Tunnel Initialization..."]
  if (waitForSshTunnelInit probe 20 1).1 = false then
    (ev1 ++ [Event.print "ERROR", Event.print "SSH Tunnel failed to initialize."], k, false)
  else
    let ev2 := ev1 ++ [Event.print "Priming Registry with base images..."]
    let sPrime := runStage o (primeStep sshHost registryPort) k (primeImages.getD [])
    if sPrime.2.2 = false then (ev2 ++ sPrime.1, sPrime.2.1, false)
    else
      let ev3 := ev2 ++ sPrime.1 ++ [Event.print "Tagging image(s) for push..."]
      let sTag := runStage o tagStep sPrime.2.1 dockerImageTagList
      if sTag.2.2 = false then (ev3 ++ sTag.1, sTag.2.1, false)
      else
        let ev4 := ev3 ++ sTag.1 ++ [Event.print "Pushing Image(s) from local host..."]
        let sPush := runStage o pushStep sTag.2.1 dockerImageTagList
        if sPush.2.2 = false then (ev4 ++ sPush.1, sPush.2.1, false)
        else
          let ev5 := ev4 ++ sPush.1 ++
            [Event.print "Pulling and Retagging Image on remote host..."]
          let sPull := runStage o (pullStep sshHost registryPort) sPush.2.1 dockerImageTagList
          (ev5 ++ sPull.1, sPull.2.1, sPull.2.2)

/-- `pushImage` from the source: registry setup (oracle slot 0); on its
failure return `False` at once (before the `try`, so without cleanup);
otherwise run the body and unconditionally append the `finally` cleanup,
whose results never affect the returned flag. -/
def pushImage (o : Oracle) (probe : Nat → ProbeResult) (dockerImageTagList : List String)
    (sshHost : String) (primeImages : Option (List String)) (registryPort : String) :
    List Event × Bool :=
  let r0 := o 0
  let ev0 : List Event :=
    [Event.print "Setting up secure private registry... ",
     Event.exec Site.registry "ssh" [sshHost, registryCmdStr registryPort] r0.ok]
  if r0.ok = false then (ev0 ++ errorPrints r0, false)
  else
    let body := pushBody o probe dockerImageTagList sshHost primeImages registryPort 1
    let fin := cleanupTrace o sshHost dockerImageTagList body.2.1
    (ev0 ++ body.1 ++ fin.1, body.2.2)

/-- Parsed command-line arguments (post-argparse values). -/
structure Args where
  ssh_host : String
  docker_image : List String
  ssh_port : String
  registry_port : String
  prime_image : Option (List String)
  deriving DecidableEq, Repr

/-- `main` from the source: print the insecure-registry reminder, run
`pushImage`, exit 1 on failure and 0 otherwise. -/
def mainRun (o : Oracle) (probe : Nat → ProbeResult) (a : Args) : List Event × Nat :=
  let res := pushImage o probe a.docker_image a.ssh_host a.prime_image a.registry_port
  (Event.print "[REQUIRED] Ensure localhost:5000 is added to your insecure registries." :: res.1,
   if res.2 then 0 else 1)

/-- Projection of a trace to its executed commands (site, executable, argv). -/
def cmdsOf (tr : List Event) : List (Site × String × List String) :=
  tr.filterMap fun e =>
    match e with
    | Event.exec s exe args _ => some (s, exe, args)
    | _ => none

/-- Argv lists of the commands a given source site executed, in order. -/
def execArgsAt (s : Site) (tr : List Event) : List (List String) :=
  tr.filterMap fun e =>
    match e with
    | Event.exec s' _ args _ => if s' = s then some args else none
    | _ => none

/-- Push-stage executions with their outcomes, in order. -/
def pushView (tr : List Event) : List (List String × Bool) :=
  tr.filterMap fun e =>
    match e with
    | Event.exec Site.pushing _ args ok => some (args, ok)
    | _ => none

/-- Cleanup-relevant actions of a trace. -/
inductive CleanupItem where
  | reg : List String → CleanupItem
  | term : CleanupItem
  | img : List String → CleanupItem
  deriving DecidableEq, Repr

/-- Project an event to the cleanup action it represents, if any. -/
def cleanupView (e : Event) : Option CleanupItem :=
  match e with
  | Event.exec Site.cleanupRegistry _ args _ => some (CleanupItem.reg args)
  | Event.exec Site.cleanupImage _ args _ => some (CleanupItem.img args)
  | Event.terminate => some CleanupItem.term
  | _ => none

/-- Project an event to the locally executed (podman) command it is, if any. -/
def localView (e : Event) : Option (Site × List String × Bool) :=
  match e with
  | Event.exec s exe args ok => if exe = "podman" then some (s, args, ok) else none
  | _ => none

/-- Locally executed (podman) commands of a trace, with outcomes. -/
def localCmds (tr : List Event) : List (Site × List String × Bool) :=
  tr.filterMap localView

/-- Every locally executed (podman) command addresses the registry as
`localhost:5000` and is one of the tag / push / image-rm forms for one of
the input tags. -/
def podmanLocalOk (tags : List String) (e : Event) : Bool :=
  match e with
  | Event.exec _ exe args _ =>
    if exe = "podman" then
      tags.any fun t =>
        (args == ["tag", t, "localhost:5000/" ++ t]) ||
        (args == ["push", "localhost:5000/" ++ t]) ||
        (args == ["image", "rm", "localhost:5000/" ++ t])
    else true
  | _ => true

/-- Number of oracle slots the main sequence consumes when every stage
succeeds: registry setup, priming, tagging, pushing, remote pull. -/
def mainSlots (dockerImageTagList : List String) (primeImages : Option (List String)) : Nat :=
  1 + (primeImages.getD []).length + 3 * dockerImageTagList.length

/-- First oracle slot consumed by cleanup (= next free index after the body). -/
def mainEnd (o : Oracle) (probe : Nat → ProbeResult) (dockerImageTagList : List String)
    (sshHost : String) (primeImages : Option (List String)) (registryPort : String) : Nat :=
  (pushBody o probe dockerImageTagList sshHost primeImages registryPort 1).2.1

/-- Every stage of the main sequence through remote pull succeeds. -/
def allStagesOk (o : Oracle) (probe : Nat → ProbeResult) (dockerImageTagList : List String)
    (primeImages : Option (List String)) : Prop :=
  (waitForSshTunnelInit probe 20 1).1 = true ∧
    ∀ i, i < mainSlots dockerImageTagList primeImages → (o i).ok = true

/-! ### Generic lemmas about the stage loop -/

theorem runStage_cons {α : Type} (o : Oracle) (step : CmdResult → α → List Event × Bool)
    (k : Nat) (a : α) (rest : List α) :
    runStage o step k (a :: rest) =
      if (step (o k) a).2 then
        ((step (o k) a).1 ++ (runStage o step (k + 1) rest).1,
          (runStage o step (k + 1) rest).2.1, (runStage o step (k + 1) rest).2.2)
      else ((step (o k) a).1, k + 1, false) := rfl

theorem runStage_k_le {α : Type} (o : Oracle) (step : CmdResult → α → List Event × Bool)
    (k : Nat) (l : List α) : k ≤ (runStage o step k l).2.1 := by
  induction l generalizing k with
  | nil => exact Nat.le_refl k
  | cons a rest ih =>
    rw [runStage_cons]
    by_cases h : (step (o k) a).2 = true
    · simp only [h, if_true]
      exact Nat.le_trans (Nat.le_succ k) (ih (k + 1))
    · simp only [h, if_false]
      exact Nat.le_succ k

theorem runStage_k_lt {α : Type} (o : Oracle) (step : CmdResult → α → List Event × Bool)
    (k : Nat) (a : α) (rest : List α) : k < (runStage o step k (a :: rest)).2.1 := by
  rw [runStage_cons]
  by_cases h : (step (o k) a).2 = true
  · simp only [h, if_true]
    exact Nat.lt_of_lt_of_le (Nat.lt_succ_self k) (runStage_k_le o step (k + 1) rest)
  · simp only [h, if_false]
    exact Nat.lt_succ_self k

theorem runStage_agree {α : Type} (o o' : Oracle) (step : CmdResult → α → List Event × Bool)
    (k : Nat) (l : List α)
    (h : ∀ i, k ≤ i → i < (runStage o step k l).2.1 → o' i = o i) :
    runStage o' step k l = runStage o step k l := by
  induction l generalizing k with
  | nil => rfl
  | cons a rest ih =>
    have hk : o' k = o k := h k (Nat.le_refl k) (runStage_k_lt o step k a rest)
    by_cases hs : (step (o k) a).2 = true
    · have hrec : runStage o' step (k + 1) rest = runStage o step (k + 1) rest := by
        refine ih (k + 1) ?_
        intro i h1 h2
        refine h i (Nat.le_trans (Nat.le_succ k) h1) ?_
        rw [runStage_cons, if_pos hs]
        exact h2
      rw [runStage_cons, runStage_cons, hk, hrec]
    · rw [runStage_cons, runStage_cons, hk, if_neg hs, if_neg hs]

theorem runStage_all_ok {α : Type} (o : Oracle) (step : CmdResult → α → List Event × Bool)
    (g : α → List Event) (hstep : ∀ r a, r.ok = true → step r a = (g a, true))
    (k : Nat) (l : List α) (hok : ∀ i, k ≤ i → i < k + l.length → (o i).ok = true) :
    runStage o step k l = ((l.map g).flatten, k + l.length, true) := by
  induction l generalizing k with
  | nil => simp [runStage]
  | cons a rest ih =>
    have h0 : (o k).ok = true := by
      refine hok k (Nat.le_refl k) ?_
      simp only [List.length_cons]
      omega
    have hs := hstep (o k) a h0
    have hrec : runStage o step (k + 1) rest =
        ((rest.map g).flatten, k + 1 + rest.length, true) := by
      refine ih (k + 1) ?_
      intro i h1 h2
      refine hok i (Nat.le_trans (Nat.le_succ k) h1) ?_
      simp only [List.length_cons]
      omega
    rw [runStage_cons, hs]
    simp only [if_true, hrec, List.map_cons, List.flatten_cons, List.length_cons]
    have harith : k + 1 + rest.length = k + (rest.length + 1) := by omega
    rw [harith]

theorem runStage_fail_at {α : Type} (o : Oracle) (step : CmdResult → α → List Event × Bool)
    (g : α → List Event) (hstep : ∀ r a, r.ok = true → step r a = (g a, true))
    (hstep2 : ∀ r a, (step r a).2 = r.ok)
    (k j : Nat) (l : List α) (hj : j < l.length)
    (hok : ∀ i, k ≤ i → i < k + j → (o i).ok = true)
    (hf : (o (k + j)).ok = false) :
    runStage o step k l =
      (((l.take j).map g).flatten ++ (step (o (k + j)) (l.get ⟨j, hj⟩)).1, k + j + 1, false) := by
  induction l generalizing k j with
  | nil => exact absurd hj (Nat.not_lt_zero j)
  | cons a rest ih =>
    cases j with
    | zero =>
      have hfl : (step (o k) a).2 = false := by
        rw [hstep2]
        simpa using hf
      rw [runStage_cons]
      simp [hfl]
    | succ j' =>
      have h0 : (o k).ok = true := by
        refine hok k (Nat.le_refl k) ?_
        omega
      have hs := hstep (o k) a h0
      have hj' : j' < rest.length := by
        simpa using Nat.lt_of_succ_lt_succ hj
      have hrec := ih (k + 1) j' hj'
        (by intro i h1 h2; refine hok i (Nat.le_trans (Nat.le_succ k) h1) (by omega))
        (by have : k + 1 + j' = k + (j' + 1) := by omega
            rw [this]; exact hf)
      rw [runStage_cons, hs]
      simp only [if_true, hrec]
      have harith : k + 1 + j' = k + (j' + 1) := by omega
      simp only [List.take_succ_cons, List.map_cons, List.flatten_cons, List.get_cons_succ,
        List.append_assoc, harith]

theorem runStage_mem {α : Type} (o : Oracle) (step : CmdResult → α → List Event × Bool)
    (k : Nat) (l : List α) (e : Event) (he : e ∈ (runStage o step k l).1) :
    ∃ i a, a ∈ l ∧ e ∈ (step (o i) a).1 := by
  induction l generalizing k with
  | nil => simp [runStage] at he
  | cons a rest ih =>
    rw [runStage_cons] at he
    by_cases hs : (step (o k) a).2 = true
    · simp only [hs, if_true, List.mem_append] at he
      rcases he with he | he
      · exact ⟨k, a, List.mem_cons_self a rest, he⟩
      · rcases ih (k + 1) he with ⟨i, b, hb, hmem⟩
        exact ⟨i, b, List.mem_cons_of_mem a hb, hmem⟩
    · simp only [hs, if_false] at he
      exact ⟨k, a, List.mem_cons_self a rest, he⟩

theorem runStage_succ_iff {α : Type} (o : Oracle) (step : CmdResult → α → List Event × Bool)
    (hstep2 : ∀ r a, (step r a).2 = r.ok) (k : Nat) (l : List α) :
    (runStage o step k l).2.2 = true ↔ ∀ j, j < l.length → (o (k + j)).ok = true := by
  induction l generalizing k with
  | nil => simp [runStage]
  | cons a rest ih =>
    rw [runStage_cons]
    by_cases hs : (step (o k) a).2 = true
    · simp only [hs, if_true]
      rw [ih (k + 1)]
      constructor
      · intro h j hj
        cases j with
        | zero =>
          simp only [Nat.add_zero]
          rw [← hstep2 (o k) a]
          exact hs
        | succ j' =>
          have : k + (j' + 1) = k + 1 + j' := by omega
          rw [this]
          exact h j' (by simpa using Nat.lt_of_succ_lt_succ hj)
      · intro h j hj
        have : k + 1 + j = k + (j + 1) := by omega
        rw [this]
        refine h (j + 1) ?_
        simpa using Nat.succ_lt_succ hj
    · simp only [hs, if_false]
      constructor
      · intro h
        exact absurd h (by simp)
      · intro h
        exfalso
        have h0 : (o k).ok = true := by simpa using h 0 (by simp)
        rw [hstep2 (o k) a, h0] at hs
        exact hs rfl

theorem runStage_succ_end {α : Type} (o : Oracle) (step : CmdResult → α → List Event × Bool)
    (k : Nat) (l : List α) (h : (runStage o step k l).2.2 = true) :
    (runStage o step k l).2.1 = k + l.length := by
  induction l generalizing k with
  | nil => simp [runStage]
  | cons a rest ih =>
    rw [runStage_cons] at h ⊢
    by_cases hs : (step (o k) a).2 = true
    · simp only [hs, if_true] at h ⊢
      rw [ih (k + 1) h]
      simp only [List.length_cons]
      omega
    · simp only [hs, if_false] at h
      exact absurd h (by simp)

theorem runStage_rel {α β : Type} (o : Oracle)
    (step step' : CmdResult → α → List Event × Bool) (f : Event → Option β)
    (hrel : ∀ r a, (step r a).1.filterMap f = (step' r a).1.filterMap f ∧
      (step r a).2 = (step' r a).2) (k : Nat) (l : List α) :
    (runStage o step k l).1.filterMap f = (runStage o step' k l).1.filterMap f ∧
      (runStage o step k l).2.1 = (runStage o step' k l).2.1 ∧
      (runStage o step k l).2.2 = (runStage o step' k l).2.2 := by
  induction l generalizing k with
  | nil => exact ⟨rfl, rfl, rfl⟩
  | cons a rest ih =>
    rcases hrel (o k) a with ⟨hrf, hrb⟩
    rcases ih (k + 1) with ⟨ihf, ihk, ihb⟩
    rw [runStage_cons, runStage_cons, ← hrb]
    by_cases hs : (step (o k) a).2 = true
    · rw [if_pos hs, if_pos hs]
      refine ⟨?_, ihk, ihb⟩
      simp only [List.filterMap_append, hrf, ihf]
    · rw [if_neg hs, if_neg hs]
      exact ⟨hrf, rfl, rfl⟩

/-! ### Per-step characterizations -/

/-- Events of a successful priming iteration. -/
def primeOkEvents (sshHost registryPort : String) (primeImage : String) : List Event :=
  [Event.print ("Priming base image (" ++ primeImage ++ ")"),
   Event.exec Site.prime "ssh" [sshHost, primeCmdStr primeImage registryPort] true]

/-- Events of a successful tagging iteration. -/
def tagOkEvents (dockerImageTag : String) : List Event :=
  [Event.exec Site.tagging "podman"
    ["tag", dockerImageTag, "localhost:5000/" ++ dockerImageTag] true]

/-- Events of a successful pushing iteration. -/
def pushOkEvents (dockerImageTag : String) : List Event :=
  [Event.exec Site.pushing "podman" ["push", "localhost:5000/" ++ dockerImageTag] true,
   Event.print ("Pushed Image " ++ dockerImageTag ++ " Successfully...")]

/-- Events of a successful remote pull iteration. -/
def pullOkEvents (sshHost registryPort : String) (dockerImageTag : String) : List Event :=
  [Event.exec Site.pulling "ssh" [sshHost, pullCmdStr dockerImageTag registryPort] true,
   Event.print ("Pulled Image " ++ dockerImageTag ++ " Successfully...")]

theorem primeStep_ok (sshHost registryPort : String) (r : CmdResult) (p : String)
    (hr : r.ok = true) :
    primeStep sshHost registryPort r p = (primeOkEvents sshHost registryPort p, true) := by
  simp [primeStep, hr, primeOkEvents]

theorem tagStep_ok (r : CmdResult) (t : String) (hr : r.ok = true) :
    tagStep r t = (tagOkEvents t, true) := by
  simp [tagStep, hr, tagOkEvents]

theorem pushStep_ok (r : CmdResult) (t : String) (hr : r.ok = true) :
    pushStep r t = (pushOkEvents t, true) := by
  simp [pushStep, hr, pushOkEvents]

theorem pullStep_ok (sshHost registryPort : String) (r : CmdResult) (t : String)
    (hr : r.ok = true) :
    pullStep sshHost registryPort r t = (pullOkEvents sshHost registryPort t, true) := by
  simp [pullStep, hr, pullOkEvents]

theorem primeStep_snd (sshHost registryPort : String) (r : CmdResult) (p : String) :
    (primeStep sshHost registryPort r p).2 = r.ok := by
  cases hr : r.ok <;> simp [primeStep, hr]

theorem tagStep_snd (r : CmdResult) (t : String) : (tagStep r t).2 = r.ok := by
  cases hr : r.ok <;> simp [tagStep, hr]

theorem pushStep_snd (r : CmdResult) (t : String) : (pushStep r t).2 = r.ok := by
  cases hr : r.ok <;> simp [pushStep, hr]

theorem pullStep_snd (sshHost registryPort : String) (r : CmdResult) (t : String) :
    (pullStep sshHost registryPort r t).2 = r.ok := by
  cases hr : r.ok <;> simp [pullStep, hr]

/-! ### Lemmas about the cleanup block -/

theorem cleanupTags_view (o : Oracle) (k : Nat) (l : List String) :
    (cleanupTags o k l).1.filterMap cleanupView =
      l.map fun t => CleanupItem.img ["image", "rm", "localhost:5000/" ++ t] := by
  induction l generalizing k with
  | nil => rfl
  | cons t rest ih =>
    simp only [cleanupTags, List.filterMap_cons, cleanupView, List.map_cons]
    rw [ih (k + 1)]

theorem cleanupTags_mem (o : Oracle) (k : Nat) (l : List String) (e : Event)
    (he : e ∈ (cleanupTags o k l).1) :
    ∃ i t, t ∈ l ∧
      e = Event.exec Site.cleanupImage "podman" ["image", "rm", "localhost:5000/" ++ t]
        ((o i).ok) := by
  induction l generalizing k with
  | nil => simp [cleanupTags] at he
  | cons t rest ih =>
    simp only [cleanupTags, List.mem_cons] at he
    rcases he with he | he
    · exact ⟨k, t, List.mem_cons_self t rest, he⟩
    · rcases ih (k + 1) he with ⟨i, t', ht', hmem⟩
      exact ⟨i, t', List.mem_cons_of_mem t ht', hmem⟩

/-! ### Lemmas about the try body -/

theorem pushBody_not_ready (o : Oracle) (probe : Nat → ProbeResult) (tags : List String)
    (host : String) (prime : Option (List String)) (port : String) (k : Nat)
    (hw : (waitForSshTunnelInit probe 20 1).1 = false) :
    pushBody o probe tags host prime port k =
      ([Event.print "Establishing SSH Tunnel...",
        Event.spawn "ssh" (tunnelSpawnArgs port host),
        Event.print "Waiting for SSH Tunnel Initialization...",
        Event.print "ERROR", Event.print "SSH Tunnel failed to initialize."], k, false) := by
  simp [pushBody, hw]

theorem pushBody_k_le (o : Oracle) (probe : Nat → ProbeResult) (tags : List String)
    (host : String) (prime : Option (List String)) (port : String) (k : Nat) :
    k ≤ (pushBody o probe tags host prime port k).2.1 := by
  by_cases hw : (waitForSshTunnelInit probe 20 1).1 = false
  · simp [pushBody, hw]
  · have h1 := runStage_k_le o (primeStep host port) k (prime.getD [])
    have h2 := runStage_k_le o tagStep
      (runStage o (primeStep host port) k (prime.getD [])).2.1 tags
    have h3 := runStage_k_le o pushStep
      (runStage o tagStep (runStage o (primeStep host port) k (prime.getD [])).2.1 tags).2.1 tags
    have h4 := runStage_k_le o (pullStep host port)
      (runStage o pushStep
        (runStage o tagStep
          (runStage o (primeStep host port) k (prime.getD [])).2.1 tags).2.1 tags).2.1 tags
    by_cases hb1 : (runStage o (primeStep host port) k (prime.getD [])).2.2 = false
    · simp only [pushBody, hw, if_false, hb1, if_true]
      exact h1
    · by_cases hb2 : (runStage o tagStep
          (runStage o (primeStep host port) k (prime.getD [])).2.1 tags).2.2 = false
      · simp only [pushBody, hw, if_false, hb1, hb2, if_true]
        exact Nat.le_trans h1 h2
      · by_cases hb3 : (runStage o pushStep
            (runStage o tagStep
              (runStage o (primeStep host port) k (prime.getD [])).2.1 tags).2.1 tags).2.2 = false
        · simp only [pushBody, hw, if_false, hb1, hb2, hb3, if_true]
          exact Nat.le_trans h1 (Nat.le_trans h2 h3)
        · simp only [pushBody, hw, if_false, hb1, hb2, hb3, if_true]
          exact Nat.le_trans h1 (Nat.le_trans h2 (Nat.le_trans h3 h4))

theorem pushBody_agree (o o' : Oracle) (probe : Nat → ProbeResult) (tags : List String)
    (host : String) (prime : Option (List String)) (port : String) (k : Nat)
    (h : ∀ i, k ≤ i → i < (pushBody o probe tags host prime port k).2.1 → o' i = o i) :
    pushBody o' probe tags host prime port k = pushBody o probe tags host prime port k := by
  by_cases hw : (waitForSshTunnelInit probe 20 1).1 = false
  · simp [pushBody, hw]
  · have h2le := runStage_k_le o tagStep
      (runStage o (primeStep host port) k (prime.getD [])).2.1 tags
    have h3le := runStage_k_le o pushStep
      (runStage o tagStep (runStage o (primeStep host port) k (prime.getD [])).2.1 tags).2.1 tags
    have h4le := runStage_k_le o (pullStep host port)
      (runStage o pushStep
        (runStage o tagStep
          (runStage o (primeStep host port) k (prime.getD [])).2.1 tags).2.1 tags).2.1 tags
    by_cases hb1 : (runStage o (primeStep host port) k (prime.getD [])).2.2 = false
    · have hg1 : runStage o' (primeStep host port) k (prime.getD []) =
          runStage o (primeStep host port) k (prime.getD []) := by
        refine runStage_agree o o' _ k _ ?_
        intro i hi1 hi2
        refine h i hi1 ?_
        simp only [pushBody, hw, if_false, hb1, if_true]
        exact hi2
      simp only [pushBody, hw, if_false, hg1, hb1, if_true]
    · have hg1 : runStage o' (primeStep host port) k (prime.getD []) =
          runStage o (primeStep host port) k (prime.getD []) := by
        refine runStage_agree o o' _ k _ ?_
        intro i hi1 hi2
        refine h i hi1 ?_
        by_cases hb2 : (runStage o tagStep
            (runStage o (primeStep host port) k (prime.getD [])).2.1 tags).2.2 = false
        · simp only [pushBody, hw, if_false, hb1, hb2, if_true]
          exact Nat.lt_of_lt_of_le hi2 h2le
        · by_cases hb3 : (runStage o pushStep
              (runStage o tagStep
                (runStage o (primeStep host port) k (prime.getD [])).2.1 tags).2.1 tags).2.2 =
              false
          · simp only [pushBody, hw, if_false, hb1, hb2, hb3, if_true]
            exact Nat.lt_of_lt_of_le hi2 (Nat.le_trans h2le h3le)
          · simp only [pushBody, hw, if_false, hb1, hb2, hb3, if_true]
            exact Nat.lt_of_lt_of_le hi2 (Nat.le_trans h2le (Nat.le_trans h3le h4le))
      by_cases hb2 : (runStage o tagStep
          (runStage o (primeStep host port) k (prime.getD [])).2.1 tags).2.2 = false
      · have hg2 : runStage o' tagStep
            (runStage o (primeStep host port) k (prime.getD [])).2.1 tags =
            runStage o tagStep
              (runStage o (primeStep host port) k (prime.getD [])).2.1 tags := by
          refine runStage_agree o o' _ _ _ ?_
          intro i hi1 hi2
          refine h i (Nat.le_trans (runStage_k_le o (primeStep host port) k (prime.getD [])) hi1) ?_
          simp only [pushBody, hw, if_false, hb1, hb2, if_true]
          exact hi2
        simp only [pushBody, hw, if_false, hg1, hg2, hb1, hb2, if_true]
      · have hg2 : runStage o' tagStep
            (runStage o (primeStep host port) k (prime.getD [])).2.1 tags =
            runStage o tagStep
              (runStage o (primeStep host port) k (prime.getD [])).2.1 tags := by
          refine runStage_agree o o' _ _ _ ?_
          intro i hi1 hi2
          refine h i (Nat.le_trans (runStage_k_le o (primeStep host port) k (prime.getD [])) hi1) ?_
          by_cases hb3 : (runStage o pushStep
              (runStage o tagStep
                (runStage o (primeStep host port) k (prime.getD [])).2.1 tags).2.1 tags).2.2 =
              false
          · simp only [pushBody, hw, if_false, hb1, hb2, hb3, if_true]
            exact Nat.lt_of_lt_of_le hi2 h3le
          · simp only [pushBody, hw, if_false, hb1, hb2, hb3, if_true]
            exact Nat.lt_of_lt_of_le hi2 (Nat.le_trans h3le h4le)
        by_cases hb3 : (runStage o pushStep
            (runStage o tagStep
              (runStage o (primeStep host port) k (prime.getD [])).2.1 tags).2.1 tags).2.2 =
            false
        · have hg3 : runStage o' pushStep
              (runStage o tagStep
                (runStage o (primeStep host port) k (prime.getD [])).2.1 tags).2.1 tags =
              runStage o pushStep
                (runStage o tagStep
                  (runStage o (primeStep host port) k (prime.getD [])).2.1 tags).2.1 tags := by
            refine runStage_agree o o' _ _ _ ?_
            intro i hi1 hi2
            refine h i (Nat.le_trans
              (Nat.le_trans (runStage_k_le o (primeStep host port) k (prime.getD [])) h2le)
              hi1) ?_
            simp only [pushBody, hw, if_false, hb1, hb2, hb3, if_true]
            exact hi2
          simp only [pushBody, hw, if_false, hg1, hg2, hg3, hb1, hb2, hb3, if_true]
        · have hg3 : runStage o' pushStep
              (runStage o tagStep
                (runStage o (primeStep host port) k (prime.getD [])).2.1 tags).2.1 tags =
              runStage o pushStep
                (runStage o tagStep
                  (runStage o (primeStep host port) k (prime.getD [])).2.1 tags).2.1 tags := by
            refine runStage_agree o o' _ _ _ ?_
            intro i hi1 hi2
            refine h i (Nat.le_trans
              (Nat.le_trans (runStage_k_le o (primeStep host port) k (prime.getD [])) h2le)
              hi1) ?_
            simp only [pushBody, hw, if_false, hb1, hb2, hb3, if_true]
            exact Nat.lt_of_lt_of_le hi2 h4le
          have hg4 : runStage o' (pullStep host port)
              (runStage o pushStep
                (runStage o tagStep
                  (runStage o (primeStep host port) k (prime.getD [])).2.1 tags).2.1 tags).2.1
                tags =
              runStage o (pullStep host port)
                (runStage o pushStep
                  (runStage o tagStep
                    (runStage o (primeStep host port) k (prime.getD [])).2.1 tags).2.1 tags).2.1
                  tags := by
            refine runStage_agree o o' _ _ _ ?_
            intro i hi1 hi2
            refine h i (Nat.le_trans
              (Nat.le_trans
                (Nat.le_trans (runStage_k_le o (primeStep host port) k (prime.getD [])) h2le)
                h3le) hi1) ?_
            simp only [pushBody, hw, if_false, hb1, hb2, hb3, if_true]
            exact hi2
          simp only [pushBody, hw, if_false, hg1, hg2, hg3, hg4, hb1, hb2, hb3, if_true]

theorem pushBody_success_iff (o : Oracle) (probe : Nat → ProbeResult) (tags : List String)
    (host : String) (prime : Option (List String)) (port : String) :
    (pushBody o probe tags host prime port 1).2.2 = true ↔
      ((waitForSshTunnelInit probe 20 1).1 = true ∧
        ∀ i, 1 ≤ i → i < mainSlots tags prime → (o i).ok = true) := by
  by_cases hw : (waitForSshTunnelInit probe 20 1).1 = false
  · simp [pushBody, hw]
  · have hw' : (waitForSshTunnelInit probe 20 1).1 = true := by
      cases hval : (waitForSshTunnelInit probe 20 1).1
      · exact absurd hval hw
      · rfl
    constructor
    · intro hs
      refine ⟨hw', ?_⟩
      by_cases hb1 : (runStage o (primeStep host port) 1 (prime.getD [])).2.2 = false
      · simp [pushBody, hw', hb1] at hs
      · have hb1' : (runStage o (primeStep host port) 1 (prime.getD [])).2.2 = true := by
          cases hval : (runStage o (primeStep host port) 1 (prime.getD [])).2.2
          · exact absurd hval hb1
          · rfl
        have f1 := (runStage_succ_iff o (primeStep host port)
          (fun r a => primeStep_snd host port r a) 1 (prime.getD [])).mp hb1'
        have E1 : (runStage o (primeStep host port) 1 (prime.getD [])).2.1 =
            1 + (prime.getD []).length :=
          runStage_succ_end o _ 1 _ hb1'
        by_cases hb2 : (runStage o tagStep
            (runStage o (primeStep host port) 1 (prime.getD [])).2.1 tags).2.2 = false
        · simp [pushBody, hw', hb1, hb2] at hs
        · have hb2' : (runStage o tagStep
              (runStage o (primeStep host port) 1 (prime.getD [])).2.1 tags).2.2 = true := by
            cases hval : (runStage o tagStep
                (runStage o (primeStep host port) 1 (prime.getD [])).2.1 tags).2.2
            · exact absurd hval hb2
            · rfl
          have f2 := (runStage_succ_iff o tagStep (fun r a => tagStep_snd r a)
            (runStage o (primeStep host port) 1 (prime.getD [])).2.1 tags).mp hb2'
          rw [E1] at f2
          have E2 : (runStage o tagStep
              (runStage o (primeStep host port) 1 (prime.getD [])).2.1 tags).2.1 =
              1 + (prime.getD []).length + tags.length := by
            rw [runStage_succ_end o _ _ _ hb2', E1]
          by_cases hb3 : (runStage o pushStep
              (runStage o tagStep
                (runStage o (primeStep host port) 1 (prime.getD [])).2.1 tags).2.1 tags).2.2 =
              false
          · simp [pushBody, hw', hb1, hb2, hb3] at hs
          · have hb3' : (runStage o pushStep
                (runStage o tagStep
                  (runStage o (primeStep host port) 1 (prime.getD [])).2.1 tags).2.1 tags).2.2 =
                true := by
              cases hval : (runStage o pushStep
                  (runStage o tagStep
                    (runStage o (primeStep host port) 1 (prime.getD [])).2.1 tags).2.1 tags).2.2
              · exact absurd hval hb3
              · rfl
            have f3 := (runStage_succ_iff o pushStep (fun r a => pushStep_snd r a)
              (runStage o tagStep
                (runStage o (primeStep host port) 1 (prime.getD [])).2.1 tags).2.1 tags).mp hb3'
            rw [E2] at f3
            have E3 : (runStage o pushStep
                (runStage o tagStep
                  (runStage o (primeStep host port) 1 (prime.getD [])).2.1 tags).2.1 tags).2.1 =
                1 + (prime.getD []).length + tags.length + tags.length := by
              rw [runStage_succ_end o _ _ _ hb3', E2]
            simp only [pushBody, hw', hb1', hb2', hb3'] at hs
            rw [if_neg (by simp), if_neg (by simp), if_neg (by simp), if_neg (by simp)] at hs
            have f4 := (runStage_succ_iff o (pullStep host port)
              (fun r a => pullStep_snd host port r a)
              (runStage o pushStep
                (runStage o tagStep
                  (runStage o (primeStep host port) 1 (prime.getD [])).2.1 tags).2.1 tags).2.1
              tags).mp hs
            rw [E3] at f4
            intro i hi1 hi2
            simp only [mainSlots] at hi2
            by_cases c1 : i < 1 + (prime.getD []).length
            · have hj := f1 (i - 1) (by omega)
              have heq : 1 + (i - 1) = i := by omega
              rw [heq] at hj
              exact hj
            · by_cases c2 : i < 1 + (prime.getD []).length + tags.length
              · have hj := f2 (i - (1 + (prime.getD []).length)) (by omega)
                have heq : 1 + (prime.getD []).length +
                    (i - (1 + (prime.getD []).length)) = i := by omega
                rw [heq] at hj
                exact hj
              · by_cases c3 : i < 1 + (prime.getD []).length + tags.length + tags.length
                · have hj := f3 (i - (1 + (prime.getD []).length + tags.length)) (by omega)
                  have heq : 1 + (prime.getD []).length + tags.length +
                      (i - (1 + (prime.getD []).length + tags.length)) = i := by omega
                  rw [heq] at hj
                  exact hj
                · have hj := f4
                    (i - (1 + (prime.getD []).length + tags.length + tags.length)) (by omega)
                  have heq : 1 + (prime.getD []).length + tags.length + tags.length +
                      (i - (1 + (prime.getD []).length + tags.length + tags.length)) = i := by
                    omega
                  rw [heq] at hj
                  exact hj
    · rintro ⟨-, hall⟩
      simp only [mainSlots] at hall
      have hb1 : (runStage o (primeStep host port) 1 (prime.getD [])).2.2 = true := by
        refine (runStage_succ_iff o (primeStep host port)
          (fun r a => primeStep_snd host port r a) 1 (prime.getD [])).mpr ?_
        intro j hj
        exact hall (1 + j) (by omega) (by omega)
      have E1 : (runStage o (primeStep host port) 1 (prime.getD [])).2.1 =
          1 + (prime.getD []).length :=
        runStage_succ_end o _ 1 _ hb1
      have hb2 : (runStage o tagStep
          (runStage o (primeStep host port) 1 (prime.getD [])).2.1 tags).2.2 = true := by
        refine (runStage_succ_iff o tagStep (fun r a => tagStep_snd r a) _ tags).mpr ?_
        intro j hj
        rw [E1]
        exact hall (1 + (prime.getD []).length + j) (by omega) (by omega)
      have E2 : (runStage o tagStep
          (runStage o (primeStep host port) 1 (prime.getD [])).2.1 tags).2.1 =
          1 + (prime.getD []).length + tags.length := by
        rw [runStage_succ_end o _ _ _ hb2, E1]
      have hb3 : (runStage o pushStep
          (runStage o tagStep
            (runStage o (primeStep host port) 1 (prime.getD [])).2.1 tags).2.1 tags).2.2 =
          true := by
        refine (runStage_succ_iff o pushStep (fun r a => pushStep_snd r a) _ tags).mpr ?_
        intro j hj
        rw [E2]
        exact hall (1 + (prime.getD []).length + tags.length + j) (by omega) (by omega)
      have E3 : (runStage o pushStep
          (runStage o tagStep
            (runStage o (primeStep host port) 1 (prime.getD [])).2.1 tags).2.1 tags).2.1 =
          1 + (prime.getD []).length + tags.length + tags.length := by
        rw [runStage_succ_end o _ _ _ hb3, E2]
      have hb4 : (runStage o (pullStep host port)
          (runStage o pushStep
            (runStage o tagStep
              (runStage o (primeStep host port) 1 (prime.getD [])).2.1 tags).2.1 tags).2.1
          tags).2.2 = true := by
        refine (runStage_succ_iff o (pullStep host port)
          (fun r a => pullStep_snd host port r a) _ tags).mpr ?_
        intro j hj
        rw [E3]
        exact hall (1 + (prime.getD []).length + tags.length + tags.length + j)
          (by omega) (by omega)
      simp only [pushBody, hw', hb1, hb2, hb3]
      rw [if_neg (by simp), if_neg (by simp), if_neg (by simp), if_neg (by simp)]
      exact hb4

theorem pushBody_all_ok (o : Oracle) (probe : Nat → ProbeResult) (tags : List String)
    (host : String) (prime : Option (List String)) (port : String)
    (hw : (waitForSshTunnelInit probe 20 1).1 = true)
    (hok : ∀ i, 1 ≤ i → i < mainSlots tags prime → (o i).ok = true) :
    pushBody o probe tags host prime port 1 =
      ([Event.print "Establishing SSH Tunnel...",
        Event.spawn "ssh" (tunnelSpawnArgs port host),
        Event.print "Waiting for SSH Tunnel Initialization...",
        Event.print "Priming Registry with base images..."] ++
       ((prime.getD []).map (primeOkEvents host port)).flatten ++
       [Event.print "Tagging image(s) for push..."] ++
       (tags.map tagOkEvents).flatten ++
       [Event.print "Pushing Image(s) from local host..."] ++
       (tags.map pushOkEvents).flatten ++
       [Event.print "Pulling and Retagging Image on remote host..."] ++
       (tags.map (pullOkEvents host port)).flatten,
       mainSlots tags prime, true) := by
  have e1 := runStage_all_ok o (primeStep host port) (primeOkEvents host port)
    (fun r a h => primeStep_ok host port r a h) 1 (prime.getD [])
    (fun i h1 h2 => hok i h1 (by simp only [mainSlots]; omega))
  have e2 := runStage_all_ok o tagStep tagOkEvents
    (fun r a h => tagStep_ok r a h) (1 + (prime.getD []).length) tags
    (fun i h1 h2 => hok i (by omega) (by simp only [mainSlots]; omega))
  have e3 := runStage_all_ok o pushStep pushOkEvents
    (fun r a h => pushStep_ok r a h) (1 + (prime.getD []).length + tags.length) tags
    (fun i h1 h2 => hok i (by omega) (by simp only [mainSlots]; omega))
  have e4 := runStage_all_ok o (pullStep host port) (pullOkEvents host port)
    (fun r a h => pullStep_ok host port r a h)
    (1 + (prime.getD []).length + tags.length + tags.length) tags
    (fun i h1 h2 => hok i (by omega) (by simp only [mainSlots]; omega))
  simp [pushBody, hw, e1, e2, e3, e4, mainSlots]
  omega

/-! ### Lemmas about pushImage as a whole -/

theorem pushImage_fail0 (o : Oracle) (probe : Nat → ProbeResult) (tags : List String)
    (host : String) (prime : Option (List String)) (port : String)
    (h0 : (o 0).ok = false) :
    pushImage o probe tags host prime port =
      ([Event.print "Setting up secure private registry... ",
        Event.exec Site.registry "ssh" [host, registryCmdStr port] false] ++
        errorPrints (o 0), false) := by
  simp [pushImage, h0]

theorem pushImage_ok0 (o : Oracle) (probe : Nat → ProbeResult) (tags : List String)
    (host : String) (prime : Option (List String)) (port : String)
    (h0 : (o 0).ok = true) :
    pushImage o probe tags host prime port =
      ([Event.print "Setting up secure private registry... ",
        Event.exec Site.registry "ssh" [host, registryCmdStr port] true] ++
        (pushBody o probe tags host prime port 1).1 ++
        (cleanupTrace o host tags (mainEnd o probe tags host prime port)).1,
       (pushBody o probe tags host prime port 1).2.2) := by
  simp [pushImage, h0, mainEnd]

theorem pushImage_true_iff (o : Oracle) (probe : Nat → ProbeResult) (tags : List String)
    (host : String) (prime : Option (List String)) (port : String) :
    (pushImage o probe tags host prime port).2 = true ↔
      allStagesOk o probe tags prime := by
  by_cases h0 : (o 0).ok = true
  · rw [pushImage_ok0 o probe tags host prime port h0]
    simp only []
    rw [pushBody_success_iff o probe tags host prime port]
    constructor
    · rintro ⟨hww, hall⟩
      refine ⟨hww, ?_⟩
      intro i hi
      cases Nat.eq_zero_or_pos i with
      | inl hz => rw [hz]; exact h0
      | inr hp => exact hall i hp hi
    · rintro ⟨hww, hall⟩
      exact ⟨hww, fun i h1 h2 => hall i h2⟩
  · have h0' : (o 0).ok = false := by
      cases hval : (o 0).ok
      · rfl
      · exact absurd hval h0
    rw [pushImage_fail0 o probe tags host prime port h0']
    simp only [allStagesOk]
    constructor
    · intro h
      exact absurd h (by simp)
    · rintro ⟨-, hall⟩
      exfalso
      have := hall 0 (by simp only [mainSlots]; omega)
      rw [h0'] at this
      exact absurd this (by simp)

/-! ### Membership lemmas for whole traces -/

theorem pushBody_forall (o : Oracle) (probe : Nat → ProbeResult) (tags : List String)
    (host : String) (prime : Option (List String)) (port : String) (k : Nat)
    (P : Event → Prop)
    (hprint : ∀ s, P (Event.print s))
    (hspawn : ∀ x a, P (Event.spawn x a))
    (hpr : ∀ r p, p ∈ prime.getD [] → ∀ e ∈ (primeStep host port r p).1, P e)
    (htg : ∀ r t, t ∈ tags → ∀ e ∈ (tagStep r t).1, P e)
    (hps : ∀ r t, t ∈ tags → ∀ e ∈ (pushStep r t).1, P e)
    (hpl : ∀ r t, t ∈ tags → ∀ e ∈ (pullStep host port r t).1, P e) :
    ∀ e ∈ (pushBody o probe tags host prime port k).1, P e := by
  intro e he
  have hmem1 : ∀ e, e ∈ (runStage o (primeStep host port) k (prime.getD [])).1 → P e := by
    intro e1 he1
    rcases runStage_mem o _ k _ e1 he1 with ⟨i, p, hp, hm⟩
    exact hpr (o i) p hp e1 hm
  have hmem2 : ∀ j, ∀ e, e ∈ (runStage o tagStep j tags).1 → P e := by
    intro j e1 he1
    rcases runStage_mem o _ j _ e1 he1 with ⟨i, t, ht, hm⟩
    exact htg (o i) t ht e1 hm
  have hmem3 : ∀ j, ∀ e, e ∈ (runStage o pushStep j tags).1 → P e := by
    intro j e1 he1
    rcases runStage_mem o _ j _ e1 he1 with ⟨i, t, ht, hm⟩
    exact hps (o i) t ht e1 hm
  have hmem4 : ∀ j, ∀ e, e ∈ (runStage o (pullStep host port) j tags).1 → P e := by
    intro j e1 he1
    rcases runStage_mem o _ j _ e1 he1 with ⟨i, t, ht, hm⟩
    exact hpl (o i) t ht e1 hm
  by_cases hw : (waitForSshTunnelInit probe 20 1).1 = false
  · rw [pushBody_not_ready o probe tags host prime port k hw] at he
    simp only [List.mem_cons, List.not_mem_nil, or_false] at he
    rcases he with h | h | h | h | h
    all_goals first
      | (rw [h]; exact hprint _)
      | (rw [h]; exact hspawn _ _)
  · by_cases hb1 : (runStage o (primeStep host port) k (prime.getD [])).2.2 = false
    · simp only [pushBody, hw, hb1] at he
      rw [if_neg (by simp), if_pos (by simp)] at he
      simp only [List.mem_append, List.mem_cons, List.not_mem_nil, or_false] at he
      rcases he with ((h | h | h) | h) | h
      · rw [h]; exact hprint _
      · rw [h]; exact hspawn _ _
      · rw [h]; exact hprint _
      · rw [h]; exact hprint _
      · exact hmem1 e h
    · by_cases hb2 : (runStage o tagStep
          (runStage o (primeStep host port) k (prime.getD [])).2.1 tags).2.2 = false
      · simp only [pushBody, hw, hb1, hb2] at he
        rw [if_neg (by simp), if_neg (by simp), if_pos (by simp)] at he
        simp only [List.mem_append, List.mem_cons, List.not_mem_nil, or_false] at he
        rcases he with ((((h | h | h) | h) | h) | h) | h
        · rw [h]; exact hprint _
        · rw [h]; exact hspawn _ _
        · rw [h]; exact hprint _
        · rw [h]; exact hprint _
        · exact hmem1 e h
        · rw [h]; exact hprint _
        · exact hmem2 _ e h
      · by_cases hb3 : (runStage o pushStep
            (runStage o tagStep
              (runStage o (primeStep host port) k (prime.getD [])).2.1 tags).2.1 tags).2.2 =
            false
        · simp only [pushBody, hw, hb1, hb2, hb3] at he
          rw [if_neg (by simp), if_neg (by simp), if_neg (by simp), if_pos (by simp)] at he
          simp only [List.mem_append, List.mem_cons, List.not_mem_nil, or_false] at he
          rcases he with ((((((h | h | h) | h) | h) | h) | h) | h) | h
          · rw [h]; exact hprint _
          · rw [h]; exact hspawn _ _
          · rw [h]; exact hprint _
          · rw [h]; exact hprint _
          · exact hmem1 e h
          · rw [h]; exact hprint _
          · exact hmem2 _ e h
          · rw [h]; exact hprint _
          · exact hmem3 _ e h
        · simp only [pushBody, hw, hb1, hb2, hb3] at he
          rw [if_neg (by simp), if_neg (by simp), if_neg (by simp), if_neg (by simp)] at he
          simp only [List.mem_append, List.mem_cons, List.not_mem_nil, or_false] at he
          rcases he with ((((((((h | h | h) | h) | h) | h) | h) | h) | h) | h) | h
          · rw [h]; exact hprint _
          · rw [h]; exact hspawn _ _
          · rw [h]; exact hprint _
          · rw [h]; exact hprint _
          · exact hmem1 e h
          · rw [h]; exact hprint _
          · exact hmem2 _ e h
          · rw [h]; exact hprint _
          · exact hmem3 _ e h
          · rw [h]; exact hprint _
          · exact hmem4 _ e h

theorem cleanupTrace_forall (o : Oracle) (host : String) (tags : List String) (k : Nat)
    (P : Event → Prop)
    (hprint : ∀ s, P (Event.print s))
    (hterm : P Event.terminate)
    (hreg : ∀ ok, P (Event.exec Site.cleanupRegistry "ssh" [host, cleanupCmdStr] ok))
    (himg : ∀ t ok, t ∈ tags →
      P (Event.exec Site.cleanupImage "podman" ["image", "rm", "localhost:5000/" ++ t] ok)) :
    ∀ e ∈ (cleanupTrace o host tags k).1, P e := by
  intro e he
  simp only [cleanupTrace, List.mem_cons] at he
  rcases he with h | h | h | h
  · rw [h]; exact hprint _
  · rw [h]; exact hreg _
  · rw [h]; exact hterm
  · rcases cleanupTags_mem o (k + 1) tags e h with ⟨i, t, ht, hm⟩
    rw [hm]
    exact himg t _ ht

theorem pushImage_forall (o : Oracle) (probe : Nat → ProbeResult) (tags : List String)
    (host : String) (prime : Option (List String)) (port : String)
    (P : Event → Prop)
    (hprint : ∀ s, P (Event.print s))
    (hspawn : ∀ x a, P (Event.spawn x a))
    (hterm : P Event.terminate)
    (hreg : ∀ ok, P (Event.exec Site.registry "ssh" [host, registryCmdStr port] ok))
    (hpr : ∀ r p, p ∈ prime.getD [] → ∀ e ∈ (primeStep host port r p).1, P e)
    (htg : ∀ r t, t ∈ tags → ∀ e ∈ (tagStep r t).1, P e)
    (hps : ∀ r t, t ∈ tags → ∀ e ∈ (pushStep r t).1, P e)
    (hpl : ∀ r t, t ∈ tags → ∀ e ∈ (pullStep host port r t).1, P e)
    (hcreg : ∀ ok, P (Event.exec Site.cleanupRegistry "ssh" [host, cleanupCmdStr] ok))
    (hcimg : ∀ t ok, t ∈ tags →
      P (Event.exec Site.cleanupImage "podman" ["image", "rm", "localhost:5000/" ++ t] ok)) :
    ∀ e ∈ (pushImage o probe tags host prime port).1, P e := by
  intro e he
  by_cases h0 : (o 0).ok = true
  · rw [pushImage_ok0 o probe tags host prime port h0] at he
    simp only [List.mem_append, List.mem_cons, List.not_mem_nil, or_false, errorPrints] at he
    rcases he with ((h | h) | h) | h
    · rw [h]; exact hprint _
    · rw [h]; exact hreg _
    · exact pushBody_forall o probe tags host prime port 1 P hprint hspawn hpr htg hps hpl e h
    · exact cleanupTrace_forall o host tags _ P hprint hterm hcreg hcimg e h
  · have h0' : (o 0).ok = false := by
      cases hval : (o 0).ok
      · rfl
      · exact absurd hval h0
    rw [pushImage_fail0 o probe tags host prime port h0'] at he
    simp only [List.mem_append, List.mem_cons, List.not_mem_nil, or_false, errorPrints] at he
    rcases he with (h | h) | h | h | h
    · rw [h]; exact hprint _
    · rw [h]; exact hreg _
    · rw [h]; exact hprint _
    · rw [h]; exact hprint _
    · rw [h]; exact hprint _

/-! ### The readiness loop -/

/-- A probe outcome that ends the loop: a response with HTTP status 200. -/
def probeSuccess (pr : ProbeResult) : Bool :=
  match pr with
  | ProbeResult.status c => c == 200
  | ProbeResult.err => false

theorem waitLoop_fail (probe : Nat → ProbeResult) (delay : Nat) (i fuel : Nat)
    (h : (waitLoop probe delay i fuel).1 = false) :
    (waitLoop probe delay i fuel).2.1 = fuel ∧
      (waitLoop probe delay i fuel).2.2 = fuel * delay := by
  induction fuel generalizing i with
  | zero => simp [waitLoop]
  | succ f ih =>
    rw [waitLoop] at h ⊢
    cases hp : probe i with
    | err =>
      rw [hp] at h
      dsimp only at h ⊢
      rcases ih (i + 1) h with ⟨h1, h2⟩
      refine ⟨by rw [h1], ?_⟩
      rw [h2, Nat.succ_mul]
    | status c =>
      rw [hp] at h
      dsimp only at h ⊢
      by_cases hc : c = 200
      · rw [if_pos hc] at h
        exact absurd h (by simp)
      · rw [if_neg hc] at h ⊢
        dsimp only at h ⊢
        rcases ih (i + 1) h with ⟨h1, h2⟩
        refine ⟨by rw [h1], ?_⟩
        rw [h2, Nat.succ_mul]

theorem waitLoop_first_success (probe : Nat → ProbeResult) (delay : Nat) (i fuel j : Nat)
    (hj : j < fuel) (hs : probeSuccess (probe (i + j)) = true)
    (hbefore : ∀ m, m < j → probeSuccess (probe (i + m)) = false) :
    waitLoop probe delay i fuel = (true, j + 1, (j + 1) * delay) := by
  induction j generalizing i fuel with
  | zero =>
    cases fuel with
    | zero => exact absurd hj (by omega)
    | succ f =>
      rw [waitLoop]
      cases hp : probe i with
      | err =>
        rw [Nat.add_zero] at hs
        rw [hp] at hs
        exact absurd hs (by simp [probeSuccess])
      | status c =>
        rw [Nat.add_zero] at hs
        rw [hp] at hs
        have hc : c = 200 := by simpa [probeSuccess] using hs
        simp [hc]
  | succ j' ih =>
    cases fuel with
    | zero => exact absurd hj (by omega)
    | succ f =>
      have h0 : probeSuccess (probe i) = false := by
        have := hbefore 0 (by omega)
        simpa using this
      have hs' : probeSuccess (probe (i + 1 + j')) = true := by
        have heq : i + 1 + j' = i + (j' + 1) := by omega
        rw [heq]
        exact hs
      have hbefore' : ∀ m, m < j' → probeSuccess (probe (i + 1 + m)) = false := by
        intro m hm
        have heq : i + 1 + m = i + (m + 1) := by omega
        rw [heq]
        exact hbefore (m + 1) (by omega)
      have hrec := ih (i + 1) f (by omega) hs' hbefore'
      rw [waitLoop]
      cases hp : probe i with
      | err =>
        dsimp only
        rw [hrec]
        simp [Nat.succ_mul]
      | status c =>
        have hc : ¬ c = 200 := by
          intro hcc
          rw [hp, hcc] at h0
          exact absurd h0 (by simp [probeSuccess])
        dsimp only
        rw [if_neg hc]
        rw [hrec]
        simp [Nat.succ_mul]

/-- C4: `waitForSshTunnelInit` with retries R and delay D fails only after
exactly R probe attempts, each preceded by a full delay sleep (R*D total, so
at least (R-1)*D elapsed), and returns success immediately at the first
attempt yielding HTTP status 200, having made exactly j+1 attempts when the
first success is attempt index j; every error or non-200 response consumes
one retry. -/
theorem claim_C4_waitReady (probe : Nat → ProbeResult) (R D : Nat) :
    ((waitForSshTunnelInit probe R D).1 = false →
      (waitForSshTunnelInit probe R D).2.1 = R ∧
        (waitForSshTunnelInit probe R D).2.2 = R * D ∧
        (R - 1) * D ≤ (waitForSshTunnelInit probe R D).2.2) ∧
    (∀ j, j < R → probeSuccess (probe j) = true →
      (∀ m, m < j → probeSuccess (probe m) = false) →
      waitForSshTunnelInit probe R D = (true, j + 1, (j + 1) * D)) := by
  constructor
  · intro h
    rcases waitLoop_fail probe D 0 R h with ⟨h1, h2⟩
    refine ⟨h1, h2, ?_⟩
    show (R - 1) * D ≤ (waitLoop probe D 0 R).2.2
    rw [h2]
    exact Nat.mul_le_mul_right D (Nat.sub_le R 1)
  · intro j hj hs hbefore
    refine waitLoop_first_success probe D 0 R j hj ?_ ?_
    · simpa using hs
    · intro m hm
      simpa using hbefore m hm

/-- Witness for C4: with a probe that errors twice and returns 200 on the
third attempt, the loop succeeds after exactly 3 attempts and 15 time units
of sleep (delay 5); with a probe that always errors, 4 retries of delay 2
fail after exactly 4 attempts and 8 time units of sleep. -/
theorem claim_C4_waitReady_witness :
    waitForSshTunnelInit (fun i => if i = 2 then ProbeResult.status 200 else ProbeResult.err)
        20 5 = (true, 3, 15) ∧
      (waitForSshTunnelInit (fun _ => ProbeResult.err) 4 2).2.1 = 4 ∧
      (waitForSshTunnelInit (fun _ => ProbeResult.err) 4 2).2.2 = 8 := by
  refine ⟨?_, ?_, ?_⟩
  · have h := (claim_C4_waitReady
      (fun i => if i = 2 then ProbeResult.status 200 else ProbeResult.err) 20 5).2
      2 (by decide) (by decide) (by decide)
    simpa using h
  · exact ((claim_C4_waitReady (fun _ => ProbeResult.err) 4 2).1 (by decide)).1
  · exact ((claim_C4_waitReady (fun _ => ProbeResult.err) 4 2).1 (by decide)).2.1

/-! ### Site classification helpers -/

/-- Source site of an executed command, if the event is an execution. -/
def execSite (e : Event) : Option Site :=
  match e with
  | Event.exec s _ _ _ => some s
  | _ => none

theorem primeStep_sites (host port : String) (r : CmdResult) (p : String) :
    ∀ e ∈ (primeStep host port r p).1,
      execSite e = none ∨ execSite e = some Site.prime := by
  intro e he
  cases hr : r.ok <;> simp [primeStep, hr, errorPrints] at he <;>
    rcases he with rfl | rfl | rfl | rfl | rfl <;> simp [execSite]

theorem tagStep_sites (r : CmdResult) (t : String) :
    ∀ e ∈ (tagStep r t).1,
      execSite e = none ∨ execSite e = some Site.tagging := by
  intro e he
  cases hr : r.ok <;> simp [tagStep, hr, errorPrints] at he
  · rcases he with rfl | rfl | rfl | rfl <;> simp [execSite]
  · rcases he with rfl <;> simp [execSite]

theorem pushStep_sites (r : CmdResult) (t : String) :
    ∀ e ∈ (pushStep r t).1,
      execSite e = none ∨ execSite e = some Site.pushing := by
  intro e he
  cases hr : r.ok <;> simp [pushStep, hr, errorPrints] at he
  · rcases he with rfl | rfl | rfl | rfl | rfl | rfl | rfl <;> simp [execSite]
  · rcases he with rfl | rfl <;> simp [execSite]

theorem pullStep_sites (host port : String) (r : CmdResult) (t : String) :
    ∀ e ∈ (pullStep host port r t).1,
      execSite e = none ∨ execSite e = some Site.pulling := by
  intro e he
  cases hr : r.ok <;> simp [pullStep, hr, errorPrints] at he
  · rcases he with rfl | rfl | rfl | rfl <;> simp [execSite]
  · rcases he with rfl | rfl <;> simp [execSite]

theorem execArgsAt_nil (s : Site) (tr : List Event)
    (h : ∀ e ∈ tr, execSite e ≠ some s) : execArgsAt s tr = [] := by
  rw [execArgsAt, List.filterMap_eq_nil_iff]
  intro e he
  cases e with
  | exec s' exe args ok =>
    have := h _ he
    simp only [execSite] at this
    have hne : ¬ s' = s := by
      intro hcc
      exact this (by rw [hcc])
    simp [hne]
  | spawn exe args => rfl
  | terminate => rfl
  | print msg => rfl

/-! ### C8: the ssh-port argument is never used -/

/-- C8: two invocations whose parsed arguments differ only in the ssh-port
value (the `-p` option) produce identical event traces and identical exit
codes: the ssh-port is accepted by the CLI surface but never reaches any
SSH invocation. -/
theorem claim_C8_sshPortUnused (o : Oracle) (probe : Nat → ProbeResult) (a : Args)
    (p : String) :
    mainRun o probe { a with ssh_port := p } = mainRun o probe a := rfl

/-! ### C10: absent prime-image list behaves as the empty list -/

/-- C10: when the prime-image option is absent (`None`), `pushImage` treats
it as the empty list: the run is identical to a run with an empty prime
list, the priming stage executes no remote command at all, and whenever the
registry setup succeeded and the tunnel became ready the workflow proceeds
to the tagging stage. -/
theorem claim_C10_nonePrime (o : Oracle) (probe : Nat → ProbeResult) (tags : List String)
    (host port : String) :
    pushImage o probe tags host none port = pushImage o probe tags host (some []) port ∧
    execArgsAt Site.prime (pushImage o probe tags host none port).1 = [] ∧
    ((o 0).ok = true → (waitForSshTunnelInit probe 20 1).1 = true →
      Event.print "Tagging image(s) for push..." ∈
        (pushImage o probe tags host none port).1) := by
  refine ⟨rfl, ?_, ?_⟩
  · refine execArgsAt_nil Site.prime _ ?_
    refine pushImage_forall o probe tags host none port
      (fun e => execSite e ≠ some Site.prime) ?_ ?_ ?_ ?_ ?_ ?_ ?_ ?_ ?_ ?_
    · intro s
      simp [execSite]
    · intro x a
      simp [execSite]
    · simp [execSite]
    · intro ok
      simp [execSite]
    · intro r p hp
      exact absurd hp (List.not_mem_nil p)
    · intro r t ht e he
      rcases tagStep_sites r t e he with h | h <;> simp [h]
    · intro r t ht e he
      rcases pushStep_sites r t e he with h | h <;> simp [h]
    · intro r t ht e he
      rcases pullStep_sites host port r t e he with h | h <;> simp [h]
    · intro ok
      simp [execSite]
    · intro t ok ht
      simp [execSite]
  · intro h0 hw
    rw [pushImage_ok0 o probe tags host none port h0]
    simp only [List.mem_append]
    left
    right
    have hb1 : (runStage o (primeStep host port) 1 ([] : List String)).2.2 = true := rfl
    by_cases hb2 : (runStage o tagStep
        (runStage o (primeStep host port) 1 ([] : List String)).2.1 tags).2.2 = false
    · simp only [pushBody, hw, Option.getD_none]
      rw [if_neg (by simp), if_neg (by simp [hb1]), if_pos hb2]
      simp
    · simp only [pushBody, hw, Option.getD_none]
      rw [if_neg (by simp), if_neg (by simp [hb1]), if_neg hb2]
      by_cases hb3 : (runStage o pushStep
          (runStage o tagStep
            (runStage o (primeStep host port) 1 ([] : List String)).2.1 tags).2.1
          tags).2.2 = false
      · rw [if_pos hb3]
        simp
      · rw [if_neg hb3]
        simp

/-! ### Concrete environments used by witnesses -/

/-- An environment in which every command succeeds with empty output. -/
def oracleAllOk : Oracle := fun _ => { ok := true, stdout := "", stderr := "" }

/-- An environment in which every command fails with empty output. -/
def oracleAllFail : Oracle := fun _ => { ok := false, stdout := "", stderr := "" }

/-- Oracle failing exactly at slot `j`. -/
def oracleFailAt (j : Nat) : Oracle :=
  fun i => { ok := decide (i ≠ j), stdout := "", stderr := "" }

/-- A registry that answers 200 at once. -/
def probeReady : Nat → ProbeResult := fun _ => ProbeResult.status 200

/-- A registry that never answers. -/
def probeDown : Nat → ProbeResult := fun _ => ProbeResult.err

/-- Witness for C10: the concrete one-tag run with no prime images equals
the empty-prime-list run, performs no priming command, and reaches the
tagging stage. -/
theorem claim_C10_nonePrime_witness :
    pushImage oracleAllOk probeReady ["app:1.0"] "user@h" none "5000" =
      pushImage oracleAllOk probeReady ["app:1.0"] "user@h" (some []) "5000" ∧
    execArgsAt Site.prime
      (pushImage oracleAllOk probeReady ["app:1.0"] "user@h" none "5000").1 = [] ∧
    Event.print "Tagging image(s) for push..." ∈
      (pushImage oracleAllOk probeReady ["app:1.0"] "user@h" none "5000").1 := by
  have h := claim_C10_nonePrime oracleAllOk probeReady ["app:1.0"] "user@h" "5000"
  exact ⟨h.1, h.2.1, h.2.2 rfl rfl⟩

/-! ### C5: registry setup -/

theorem execArgsAt_cleanupTags (s : Site) (hs : ¬ s = Site.cleanupImage)
    (o : Oracle) (k : Nat) (l : List String) :
    execArgsAt s (cleanupTags o k l).1 = [] := by
  refine execArgsAt_nil s _ ?_
  intro e he
  rcases cleanupTags_mem o k l e he with ⟨i, t, ht, hm⟩
  rw [hm]
  simp only [execSite]
  intro hc
  rw [Option.some_inj] at hc
  exact hs (by rw [← hc])

theorem execArgsAt_cleanupImage_cleanupTags (o : Oracle) (k : Nat) (l : List String) :
    execArgsAt Site.cleanupImage (cleanupTags o k l).1 =
      l.map fun t => ["image", "rm", "localhost:5000/" ++ t] := by
  induction l generalizing k with
  | nil => rfl
  | cons t rest ih =>
    simp only [cleanupTags, execArgsAt, List.filterMap_cons, List.map_cons]
    rw [← execArgsAt]
    rw [ih (k + 1)]
    rfl

/-- C5: registry setup issues one single remote invocation whose shell
command is the forced removal of the container named
docker-push-ssh-registry followed by launching a registry container bound
to `127.0.0.1:<registryPort>`; it is the first command of every run and the
only registry-setup command, and when it fails the workflow returns failure
before the tunnel process is ever spawned. -/
theorem claim_C5_registrySetup (o : Oracle) (probe : Nat → ProbeResult)
    (tags : List String) (host : String) (prime : Option (List String)) (port : String) :
    (registryCmdStr port =
      "sh -l -c \"" ++ "podman rm -f docker-push-ssh-registry" ++ "; " ++
      "podman run -d -v /var/lib/registry:/var/lib/registry " ++
      "--name docker-push-ssh-registry -p 127.0.0.1:" ++ port ++ ":5000 registry" ++ "\"") ∧
    (cmdsOf (pushImage o probe tags host prime port).1).head? =
      some (Site.registry, "ssh", [host, registryCmdStr port]) ∧
    execArgsAt Site.registry (pushImage o probe tags host prime port).1 =
      [[host, registryCmdStr port]] ∧
    ((o 0).ok = false →
      (∀ x a, Event.spawn x a ∉ (pushImage o probe tags host prime port).1) ∧
      (pushImage o probe tags host prime port).2 = false) := by
  have hbody : ∀ e ∈ (pushBody o probe tags host prime port 1).1,
      execSite e ≠ some Site.registry := by
    refine pushBody_forall o probe tags host prime port 1 _ ?_ ?_ ?_ ?_ ?_ ?_
    · intro s
      simp [execSite]
    · intro x a
      simp [execSite]
    · intro r p hp e he
      rcases primeStep_sites host port r p e he with h | h <;> simp [h]
    · intro r t ht e he
      rcases tagStep_sites r t e he with h | h <;> simp [h]
    · intro r t ht e he
      rcases pushStep_sites r t e he with h | h <;> simp [h]
    · intro r t ht e he
      rcases pullStep_sites host port r t e he with h | h <;> simp [h]
  have hclean : ∀ e ∈ (cleanupTrace o host tags
      (mainEnd o probe tags host prime port)).1, execSite e ≠ some Site.registry := by
    refine cleanupTrace_forall o host tags _ _ ?_ ?_ ?_ ?_
    · intro s
      simp [execSite]
    · simp [execSite]
    · intro ok
      simp [execSite]
    · intro t ok ht
      simp [execSite]
  refine ⟨by simp [registryCmdStr, String.append_assoc], ?_, ?_, ?_⟩
  · by_cases h0 : (o 0).ok = true
    · rw [pushImage_ok0 o probe tags host prime port h0]
      simp [cmdsOf]
    · have h0' : (o 0).ok = false := by
        cases hval : (o 0).ok
        · rfl
        · exact absurd hval h0
      rw [pushImage_fail0 o probe tags host prime port h0']
      simp [cmdsOf]
  · by_cases h0 : (o 0).ok = true
    · rw [pushImage_ok0 o probe tags host prime port h0]
      rw [execArgsAt, List.filterMap_append, List.filterMap_append]
      rw [← execArgsAt, ← execArgsAt, ← execArgsAt]
      rw [execArgsAt_nil Site.registry _ hbody, execArgsAt_nil Site.registry _ hclean]
      simp [execArgsAt]
    · have h0' : (o 0).ok = false := by
        cases hval : (o 0).ok
        · rfl
        · exact absurd hval h0
      rw [pushImage_fail0 o probe tags host prime port h0']
      simp [execArgsAt, errorPrints]
  · intro h0
    rw [pushImage_fail0 o probe tags host prime port h0]
    constructor
    · intro x a
      simp [errorPrints]
    · rfl

/-- Witness for C5: with a failing registry setup, the run of one tag at
the default port spawns no tunnel process and reports failure; the
registry command is still the first and only registry invocation. -/
theorem claim_C5_registrySetup_witness :
    Event.spawn "ssh" (tunnelSpawnArgs "5000" "user@h") ∉
      (pushImage oracleAllFail probeDown ["app:1.0"] "user@h" none "5000").1 ∧
    (pushImage oracleAllFail probeDown ["app:1.0"] "user@h" none "5000").2 = false ∧
    execArgsAt Site.registry
      (pushImage oracleAllFail probeDown ["app:1.0"] "user@h" none "5000").1 =
      [["user@h", registryCmdStr "5000"]] := by
  have h := claim_C5_registrySetup oracleAllFail probeDown ["app:1.0"] "user@h" none "5000"
  exact ⟨(h.2.2.2 rfl).1 "ssh" (tunnelSpawnArgs "5000" "user@h"), (h.2.2.2 rfl).2, h.2.2.1⟩

/-! ### C9: cleanup removes the local retag of every input tag -/

/-- C9: whenever cleanup runs — that is, whenever registry setup succeeded,
so the try block was entered — the cleanup stage attempts
`podman image rm localhost:5000/<tag>` for every tag of the input list, in
input order, no matter which stage failed, including tags whose local retag
was never created because the workflow aborted earlier. -/
theorem claim_C9_cleanupImageRemovals (o : Oracle) (probe : Nat → ProbeResult)
    (tags : List String) (host : String) (prime : Option (List String)) (port : String)
    (h0 : (o 0).ok = true) :
    execArgsAt Site.cleanupImage (pushImage o probe tags host prime port).1 =
      tags.map fun t => ["image", "rm", "localhost:5000/" ++ t] := by
  have hbody : ∀ e ∈ (pushBody o probe tags host prime port 1).1,
      execSite e ≠ some Site.cleanupImage := by
    refine pushBody_forall o probe tags host prime port 1 _ ?_ ?_ ?_ ?_ ?_ ?_
    · intro s
      simp [execSite]
    · intro x a
      simp [execSite]
    · intro r p hp e he
      rcases primeStep_sites host port r p e he with h | h <;> simp [h]
    · intro r t ht e he
      rcases tagStep_sites r t e he with h | h <;> simp [h]
    · intro r t ht e he
      rcases pushStep_sites r t e he with h | h <;> simp [h]
    · intro r t ht e he
      rcases pullStep_sites host port r t e he with h | h <;> simp [h]
  have hct : execArgsAt Site.cleanupImage
      (cleanupTrace o host tags (mainEnd o probe tags host prime port)).1 =
      tags.map fun t => ["image", "rm", "localhost:5000/" ++ t] := by
    have h := execArgsAt_cleanupImage_cleanupTags o
      (mainEnd o probe tags host prime port + 1) tags
    simp only [execArgsAt] at h ⊢
    simp only [cleanupTrace, List.filterMap_cons]
    simp [h]
  rw [pushImage_ok0 o probe tags host prime port h0]
  rw [execArgsAt, List.filterMap_append, List.filterMap_append]
  rw [← execArgsAt, ← execArgsAt, ← execArgsAt]
  rw [execArgsAt_nil Site.cleanupImage _ hbody, hct]
  simp [execArgsAt]

/-- Witness for C9: a run whose tunnel never comes up (so no local retag was
ever created) still attempts the local image removal for the single input
tag during cleanup. -/
theorem claim_C9_cleanupImageRemovals_witness :
    execArgsAt Site.cleanupImage
      (pushImage oracleAllOk probeDown ["app:1.0"] "user@h" none "5000").1 =
      [["image", "rm", "localhost:5000/app:1.0"]] := by
  have h := claim_C9_cleanupImageRemovals oracleAllOk probeDown ["app:1.0"] "user@h"
    none "5000" rfl
  rw [h]
  rfl

/-! ### Step membership characterizations -/

theorem primeStep_mem (host port : String) (r : CmdResult) (p : String) (e : Event)
    (he : e ∈ (primeStep host port r p).1) :
    e = Event.print ("Priming base image (" ++ p ++ ")") ∨
    e = Event.exec Site.prime "ssh" [host, primeCmdStr p port] r.ok ∨
    e = Event.print "ERROR" ∨ e = Event.print r.stdout ∨ e = Event.print r.stderr := by
  cases hr : r.ok <;> simp [primeStep, hr, errorPrints] at he <;> tauto

theorem tagStep_mem (r : CmdResult) (t : String) (e : Event)
    (he : e ∈ (tagStep r t).1) :
    e = Event.exec Site.tagging "podman" ["tag", t, "localhost:5000/" ++ t] r.ok ∨
    e = Event.print "ERROR" ∨ e = Event.print r.stdout ∨ e = Event.print r.stderr := by
  cases hr : r.ok <;> simp [tagStep, hr, errorPrints] at he <;> tauto

theorem pushStep_mem (r : CmdResult) (t : String) (e : Event)
    (he : e ∈ (pushStep r t).1) :
    e = Event.exec Site.pushing "podman" ["push", "localhost:5000/" ++ t] r.ok ∨
    e = Event.print ("Pushed Image " ++ t ++ " Successfully...") ∨
    e = Event.print "ERROR" ∨ e = Event.print r.stdout ∨ e = Event.print r.stderr ∨
    e = Event.print
      "Error Pushing Image: Ensure localhost:5000 is added to your insecure registries." ∨
    e = Event.print
      "More Details (OS X): https://stackoverflow.com/questions/32808215/where-to-set-the-insecure-registry-flag-on-mac-os" ∨
    e = Event.print
      "More Details (Linux): https://stackoverflow.com/questions/42211380/add-insecure-registry-to-docker" := by
  cases hr : r.ok <;> simp [pushStep, hr, errorPrints] at he <;> tauto

theorem pullStep_mem (host port : String) (r : CmdResult) (t : String) (e : Event)
    (he : e ∈ (pullStep host port r t).1) :
    e = Event.exec Site.pulling "ssh" [host, pullCmdStr t port] r.ok ∨
    e = Event.print ("Pulled Image " ++ t ++ " Successfully...") ∨
    e = Event.print "ERROR" ∨ e = Event.print r.stdout ∨ e = Event.print r.stderr := by
  cases hr : r.ok <;> simp [pullStep, hr, errorPrints] at he <;> tauto

/-! ### C1: the cleanup guarantee -/

theorem cleanupTrace_view (o : Oracle) (host : String) (tags : List String) (k : Nat) :
    (cleanupTrace o host tags k).1.filterMap cleanupView =
      CleanupItem.reg [host, cleanupCmdStr] :: CleanupItem.term ::
        tags.map (fun t => CleanupItem.img ["image", "rm", "localhost:5000/" ++ t]) := by
  simp only [cleanupTrace, List.filterMap_cons, cleanupView]
  rw [cleanupTags_view]

/-- C1 is falsified by the code as stated: when registry setup itself
fails, `pushImage` returns before entering the try block, so cleanup never
runs at all — no registry removal, no tunnel termination, no local image
removal — although the registry-setup command was executed (and failed). -/
theorem claim_C1_counterexample :
    (pushImage oracleAllFail probeDown ["app:1.0"] "user@h" none "5000").1.filterMap
        cleanupView = [] ∧
    Event.exec Site.registry "ssh" ["user@h", registryCmdStr "5000"] false ∈
      (pushImage oracleAllFail probeDown ["app:1.0"] "user@h" none "5000").1 := by
  constructor
  · rfl
  · rw [pushImage_fail0 oracleAllFail probeDown ["app:1.0"] "user@h" none "5000" rfl]
    simp

/-- C1 (amended): on every invocation in which registry setup succeeded,
cleanup executes exactly once — whatever later stage failed, including a
tunnel-readiness failure — and performs, in order: removal of the remote
ephemeral registry container, termination of the tunnel, removal of the
locally-created retagged image of each input tag in input order; cleanup's
own command results never change the workflow's reported result.  When
registry setup itself fails, cleanup is skipped. -/
theorem claim_C1_cleanup (o o' : Oracle) (probe : Nat → ProbeResult) (tags : List String)
    (host : String) (prime : Option (List String)) (port : String)
    (h0 : (o 0).ok = true) :
    (pushImage o probe tags host prime port).1.filterMap cleanupView =
      CleanupItem.reg [host, cleanupCmdStr] :: CleanupItem.term ::
        tags.map (fun t => CleanupItem.img ["image", "rm", "localhost:5000/" ++ t]) ∧
    ((∀ i, i < mainEnd o probe tags host prime port → o i = o' i) →
      (pushImage o' probe tags host prime port).2 =
        (pushImage o probe tags host prime port).2) := by
  constructor
  · have hbody : ∀ e ∈ (pushBody o probe tags host prime port 1).1,
        cleanupView e = none := by
      refine pushBody_forall o probe tags host prime port 1 _ ?_ ?_ ?_ ?_ ?_ ?_
      · intro s
        rfl
      · intro x a
        rfl
      · intro r p hp e he
        rcases primeStep_mem host port r p e he with h | h | h | h | h <;>
          rw [h] <;> rfl
      · intro r t ht e he
        rcases tagStep_mem r t e he with h | h | h | h <;> rw [h] <;> rfl
      · intro r t ht e he
        rcases pushStep_mem r t e he with h | h | h | h | h | h | h | h <;> rw [h] <;> rfl
      · intro r t ht e he
        rcases pullStep_mem host port r t e he with h | h | h | h | h <;> rw [h] <;> rfl
    rw [pushImage_ok0 o probe tags host prime port h0]
    rw [List.filterMap_append, List.filterMap_append]
    rw [List.filterMap_eq_nil_iff.mpr hbody, cleanupTrace_view]
    rfl
  · intro hag
    have hend : 1 ≤ mainEnd o probe tags host prime port :=
      pushBody_k_le o probe tags host prime port 1
    have h0' : (o' 0).ok = true := by
      rw [← hag 0 (by omega)]
      exact h0
    have hbe : pushBody o' probe tags host prime port 1 =
        pushBody o probe tags host prime port 1 := by
      refine pushBody_agree o o' probe tags host prime port 1 ?_
      intro i hi1 hi2
      exact (hag i hi2).symm
    rw [pushImage_ok0 o' probe tags host prime port h0',
      pushImage_ok0 o probe tags host prime port h0]
    simp only [hbe]

/-- Witness for C1: a fully successful one-tag run performs exactly the
three cleanup actions in order; failing every command from the cleanup
phase onwards (slot 4) leaves the reported result unchanged. -/
theorem claim_C1_cleanup_witness :
    (pushImage oracleAllOk probeReady ["app:1.0"] "user@h" none "5000").1.filterMap
        cleanupView =
      [CleanupItem.reg ["user@h", cleanupCmdStr], CleanupItem.term,
       CleanupItem.img ["image", "rm", "localhost:5000/app:1.0"]] ∧
    (pushImage (oracleFailAt 4) probeReady ["app:1.0"] "user@h" none "5000").2 =
      (pushImage oracleAllOk probeReady ["app:1.0"] "user@h" none "5000").2 := by
  have h := claim_C1_cleanup oracleAllOk (oracleFailAt 4) probeReady ["app:1.0"] "user@h"
    none "5000" rfl
  refine ⟨?_, ?_⟩
  · rw [h.1]
    rfl
  · refine h.2 ?_
    intro i hi
    have hm : mainEnd oracleAllOk probeReady ["app:1.0"] "user@h" none "5000" = 4 := rfl
    rw [hm] at hi
    simp only [oracleAllOk, oracleFailAt, CmdResult.mk.injEq, and_true, true_and]
    have : ¬ i = 4 := by omega
    simp [this]

/-! ### Branch shapes of the try body -/

theorem pushBody_prime_fail (o : Oracle) (probe : Nat → ProbeResult) (tags : List String)
    (host : String) (prime : Option (List String)) (port : String) (k : Nat)
    (hw : (waitForSshTunnelInit probe 20 1).1 = true)
    (hb1 : (runStage o (primeStep host port) k (prime.getD [])).2.2 = false) :
    pushBody o probe tags host prime port k =
      ([Event.print "Establishing SSH Tunnel...",
        Event.spawn "ssh" (tunnelSpawnArgs port host),
        Event.print "Waiting for SSH Tunnel Initialization...",
        Event.print "Priming Registry with base images..."] ++
        (runStage o (primeStep host port) k (prime.getD [])).1,
       (runStage o (primeStep host port) k (prime.getD [])).2.1, false) := by
  simp only [pushBody, hw, hb1]
  rw [if_neg (by simp), if_pos trivial]
  simp

theorem pushBody_tag_fail (o : Oracle) (probe : Nat → ProbeResult) (tags : List String)
    (host : String) (prime : Option (List String)) (port : String) (k : Nat)
    (hw : (waitForSshTunnelInit probe 20 1).1 = true)
    (hb1 : (runStage o (primeStep host port) k (prime.getD [])).2.2 = true)
    (hb2 : (runStage o tagStep
      (runStage o (primeStep host port) k (prime.getD [])).2.1 tags).2.2 = false) :
    pushBody o probe tags host prime port k =
      ([Event.print "Establishing SSH Tunnel...",
        Event.spawn "ssh" (tunnelSpawnArgs port host),
        Event.print "Waiting for SSH Tunnel Initialization...",
        Event.print "Priming Registry with base images..."] ++
        (runStage o (primeStep host port) k (prime.getD [])).1 ++
        [Event.print "Tagging image(s) for push..."] ++
        (runStage o tagStep
          (runStage o (primeStep host port) k (prime.getD [])).2.1 tags).1,
       (runStage o tagStep
         (runStage o (primeStep host port) k (prime.getD [])).2.1 tags).2.1, false) := by
  simp only [pushBody, hw, hb1, hb2]
  rw [if_neg (by simp), if_neg (by simp), if_pos trivial]
  simp

theorem pushBody_push_fail (o : Oracle) (probe : Nat → ProbeResult) (tags : List String)
    (host : String) (prime : Option (List String)) (port : String) (k : Nat)
    (hw : (waitForSshTunnelInit probe 20 1).1 = true)
    (hb1 : (runStage o (primeStep host port) k (prime.getD [])).2.2 = true)
    (hb2 : (runStage o tagStep
      (runStage o (primeStep host port) k (prime.getD [])).2.1 tags).2.2 = true)
    (hb3 : (runStage o pushStep
      (runStage o tagStep
        (runStage o (primeStep host port) k (prime.getD [])).2.1 tags).2.1 tags).2.2 =
      false) :
    pushBody o probe tags host prime port k =
      ([Event.print "Establishing SSH Tunnel...",
        Event.spawn "ssh" (tunnelSpawnArgs port host),
        Event.print "Waiting for SSH Tunnel Initialization...",
        Event.print "Priming Registry with base images..."] ++
        (runStage o (primeStep host port) k (prime.getD [])).1 ++
        [Event.print "Tagging image(s) for push..."] ++
        (runStage o tagStep
          (runStage o (primeStep host port) k (prime.getD [])).2.1 tags).1 ++
        [Event.print "Pushing Image(s) from local host..."] ++
        (runStage o pushStep
          (runStage o tagStep
            (runStage o (primeStep host port) k (prime.getD [])).2.1 tags).2.1 tags).1,
       (runStage o pushStep
         (runStage o tagStep
           (runStage o (primeStep host port) k (prime.getD [])).2.1 tags).2.1 tags).2.1,
       false) := by
  simp only [pushBody, hw, hb1, hb2, hb3]
  rw [if_neg (by simp), if_neg (by simp), if_neg (by simp), if_pos trivial]
  simp

theorem pushBody_pull_reached (o : Oracle) (probe : Nat → ProbeResult) (tags : List String)
    (host : String) (prime : Option (List String)) (port : String) (k : Nat)
    (hw : (waitForSshTunnelInit probe 20 1).1 = true)
    (hb1 : (runStage o (primeStep host port) k (prime.getD [])).2.2 = true)
    (hb2 : (runStage o tagStep
      (runStage o (primeStep host port) k (prime.getD [])).2.1 tags).2.2 = true)
    (hb3 : (runStage o pushStep
      (runStage o tagStep
        (runStage o (primeStep host port) k (prime.getD [])).2.1 tags).2.1 tags).2.2 =
      true) :
    pushBody o probe tags host prime port k =
      ([Event.print "Establishing SSH Tunnel...",
        Event.spawn "ssh" (tunnelSpawnArgs port host),
        Event.print "Waiting for SSH Tunnel Initialization...",
        Event.print "Priming Registry with base images..."] ++
        (runStage o (primeStep host port) k (prime.getD [])).1 ++
        [Event.print "Tagging image(s) for push..."] ++
        (runStage o tagStep
          (runStage o (primeStep host port) k (prime.getD [])).2.1 tags).1 ++
        [Event.print "Pushing Image(s) from local host..."] ++
        (runStage o pushStep
          (runStage o tagStep
            (runStage o (primeStep host port) k (prime.getD [])).2.1 tags).2.1 tags).1 ++
        [Event.print "Pulling and Retagging Image on remote host..."] ++
        (runStage o (pullStep host port)
          (runStage o pushStep
            (runStage o tagStep
              (runStage o (primeStep host port) k (prime.getD [])).2.1 tags).2.1 tags).2.1
          tags).1,
       (runStage o (pullStep host port)
         (runStage o pushStep
           (runStage o tagStep
             (runStage o (primeStep host port) k (prime.getD [])).2.1 tags).2.1 tags).2.1
         tags).2.1,
       (runStage o (pullStep host port)
         (runStage o pushStep
           (runStage o tagStep
             (runStage o (primeStep host port) k (prime.getD [])).2.1 tags).2.1 tags).2.1
         tags).2.2) := by
  simp only [pushBody, hw, hb1, hb2, hb3]
  rw [if_neg (by simp), if_neg (by simp), if_neg (by simp), if_neg (by simp)]
  simp

/-! ### C2: the fixed local registry address -/

theorem stepRel_prime (host port port' : String) :
    ∀ (r : CmdResult) (p : String),
      (primeStep host port r p).1.filterMap localView =
        (primeStep host port' r p).1.filterMap localView ∧
      (primeStep host port r p).2 = (primeStep host port' r p).2 := by
  intro r p
  cases hr : r.ok <;> simp [primeStep, hr, errorPrints, localView]

theorem stepRel_pull (host port port' : String) :
    ∀ (r : CmdResult) (t : String),
      (pullStep host port r t).1.filterMap localView =
        (pullStep host port' r t).1.filterMap localView ∧
      (pullStep host port r t).2 = (pullStep host port' r t).2 := by
  intro r t
  cases hr : r.ok <;> simp [pullStep, hr, errorPrints, localView]

theorem pushBody_local_rel (o : Oracle) (probe : Nat → ProbeResult) (tags : List String)
    (host : String) (prime : Option (List String)) (port port' : String) (k : Nat) :
    (pushBody o probe tags host prime port k).1.filterMap localView =
      (pushBody o probe tags host prime port' k).1.filterMap localView ∧
    (pushBody o probe tags host prime port k).2.1 =
      (pushBody o probe tags host prime port' k).2.1 ∧
    (pushBody o probe tags host prime port k).2.2 =
      (pushBody o probe tags host prime port' k).2.2 := by
  by_cases hw : (waitForSshTunnelInit probe 20 1).1 = false
  · rw [pushBody_not_ready o probe tags host prime port k hw,
      pushBody_not_ready o probe tags host prime port' k hw]
    refine ⟨?_, rfl, rfl⟩
    simp [localView]
  · have hw' : (waitForSshTunnelInit probe 20 1).1 = true := by
      cases hval : (waitForSshTunnelInit probe 20 1).1
      · exact absurd hval hw
      · rfl
    rcases runStage_rel o (primeStep host port) (primeStep host port') localView
      (stepRel_prime host port port') k (prime.getD []) with ⟨F1, K1, B1⟩
    have E2 : runStage o tagStep
        (runStage o (primeStep host port') k (prime.getD [])).2.1 tags =
        runStage o tagStep
          (runStage o (primeStep host port) k (prime.getD [])).2.1 tags := by
      rw [← K1]
    have E3 : runStage o pushStep
        (runStage o tagStep
          (runStage o (primeStep host port') k (prime.getD [])).2.1 tags).2.1 tags =
        runStage o pushStep
          (runStage o tagStep
            (runStage o (primeStep host port) k (prime.getD [])).2.1 tags).2.1 tags := by
      rw [E2]
    rcases runStage_rel o (pullStep host port) (pullStep host port') localView
      (stepRel_pull host port port')
      (runStage o pushStep
        (runStage o tagStep
          (runStage o (primeStep host port) k (prime.getD [])).2.1 tags).2.1 tags).2.1
      tags with ⟨F4, K4, B4⟩
    have E4 : runStage o (pullStep host port')
        (runStage o pushStep
          (runStage o tagStep
            (runStage o (primeStep host port') k (prime.getD [])).2.1 tags).2.1 tags).2.1
        tags =
        runStage o (pullStep host port')
          (runStage o pushStep
            (runStage o tagStep
              (runStage o (primeStep host port) k (prime.getD [])).2.1 tags).2.1 tags).2.1
          tags := by
      rw [E3]
    by_cases hb1 : (runStage o (primeStep host port) k (prime.getD [])).2.2 = false
    · have hb1' : (runStage o (primeStep host port') k (prime.getD [])).2.2 = false := by
        rw [← B1]
        exact hb1
      rw [pushBody_prime_fail o probe tags host prime port k hw' hb1,
        pushBody_prime_fail o probe tags host prime port' k hw' hb1']
      refine ⟨?_, K1, rfl⟩
      simp only [List.filterMap_append]
      rw [F1]
      simp [localView]
    · have hb1t : (runStage o (primeStep host port) k (prime.getD [])).2.2 = true := by
        cases hval : (runStage o (primeStep host port) k (prime.getD [])).2.2
        · exact absurd hval hb1
        · rfl
      have hb1t' : (runStage o (primeStep host port') k (prime.getD [])).2.2 = true := by
        rw [← B1]
        exact hb1t
      by_cases hb2 : (runStage o tagStep
          (runStage o (primeStep host port) k (prime.getD [])).2.1 tags).2.2 = false
      · have hb2' : (runStage o tagStep
            (runStage o (primeStep host port') k (prime.getD [])).2.1 tags).2.2 = false := by
          rw [E2]
          exact hb2
        rw [pushBody_tag_fail o probe tags host prime port k hw' hb1t hb2,
          pushBody_tag_fail o probe tags host prime port' k hw' hb1t' hb2']
        refine ⟨?_, by rw [E2], rfl⟩
        simp only [List.filterMap_append]
        rw [F1, E2]
        simp [localView]
      · have hb2t : (runStage o tagStep
            (runStage o (primeStep host port) k (prime.getD [])).2.1 tags).2.2 = true := by
          cases hval : (runStage o tagStep
              (runStage o (primeStep host port) k (prime.getD [])).2.1 tags).2.2
          · exact absurd hval hb2
          · rfl
        have hb2t' : (runStage o tagStep
            (runStage o (primeStep host port') k (prime.getD [])).2.1 tags).2.2 = true := by
          rw [E2]
          exact hb2t
        by_cases hb3 : (runStage o pushStep
            (runStage o tagStep
              (runStage o (primeStep host port) k (prime.getD [])).2.1 tags).2.1 tags).2.2 =
            false
        · have hb3' : (runStage o pushStep
              (runStage o tagStep
                (runStage o (primeStep host port') k (prime.getD [])).2.1 tags).2.1
              tags).2.2 = false := by
            rw [E3]
            exact hb3
          rw [pushBody_push_fail o probe tags host prime port k hw' hb1t hb2t hb3,
            pushBody_push_fail o probe tags host prime port' k hw' hb1t' hb2t' hb3']
          refine ⟨?_, by rw [E3], rfl⟩
          simp only [List.filterMap_append]
          rw [F1, E2]
          simp [localView]
        · have hb3t : (runStage o pushStep
              (runStage o tagStep
                (runStage o (primeStep host port) k (prime.getD [])).2.1 tags).2.1
              tags).2.2 = true := by
            cases hval : (runStage o pushStep
                (runStage o tagStep
                  (runStage o (primeStep host port) k (prime.getD [])).2.1 tags).2.1
                tags).2.2
            · exact absurd hval hb3
            · rfl
          have hb3t' : (runStage o pushStep
              (runStage o tagStep
                (runStage o (primeStep host port') k (prime.getD [])).2.1 tags).2.1
              tags).2.2 = true := by
            rw [E3]
            exact hb3t
          rw [pushBody_pull_reached o probe tags host prime port k hw' hb1t hb2t hb3t,
            pushBody_pull_reached o probe tags host prime port' k hw' hb1t' hb2t' hb3t']
          refine ⟨?_, ?_, ?_⟩
          · simp only [List.filterMap_append]
            rw [F1, E4, F4, E2]
            simp [localView]
          · rw [E4]
            exact K4
          · rw [E4]
            exact B4

/-- C2: the locally executed (podman) commands of a run — their argv
strings and outcomes — are identical whatever the value of the registry
port: the local tag and push steps always address the fixed
`localhost:5000`, and every locally executed command is one of the
tag / push / image-rm forms over `localhost:5000` for one of the input
tags; the configurable port parametrizes only the remote side (registry
bind, tunnel remote endpoint, remote prime and pull addresses). -/
theorem claim_C2_fixedLocalAddress (o : Oracle) (probe : Nat → ProbeResult)
    (tags : List String) (host : String) (prime : Option (List String))
    (port port' : String) :
    localCmds (pushImage o probe tags host prime port).1 =
      localCmds (pushImage o probe tags host prime port').1 ∧
    ∀ e ∈ (pushImage o probe tags host prime port).1, podmanLocalOk tags e = true := by
  constructor
  · by_cases h0 : (o 0).ok = true
    · rw [pushImage_ok0 o probe tags host prime port h0,
        pushImage_ok0 o probe tags host prime port' h0]
      rcases pushBody_local_rel o probe tags host prime port port' 1 with ⟨BF, BK, -⟩
      have hme : mainEnd o probe tags host prime port =
          mainEnd o probe tags host prime port' := BK
      simp only [localCmds, List.filterMap_append]
      rw [BF, hme]
      simp [localView]
    · have h0' : (o 0).ok = false := by
        cases hval : (o 0).ok
        · rfl
        · exact absurd hval h0
      rw [pushImage_fail0 o probe tags host prime port h0',
        pushImage_fail0 o probe tags host prime port' h0']
      simp [localCmds, localView, errorPrints]
  · refine pushImage_forall o probe tags host prime port _ ?_ ?_ ?_ ?_ ?_ ?_ ?_ ?_ ?_ ?_
    · intro s
      rfl
    · intro x a
      rfl
    · rfl
    · intro ok
      simp [podmanLocalOk]
    · intro r p hp e he
      rcases primeStep_mem host port r p e he with h | h | h | h | h <;> rw [h] <;>
        simp [podmanLocalOk]
    · intro r t ht e he
      rcases tagStep_mem r t e he with h | h | h | h <;> rw [h] <;>
        simp only [podmanLocalOk] <;>
        first
          | rfl
          | (rw [if_pos trivial, List.any_eq_true]; exact ⟨t, ht, by simp⟩)
    · intro r t ht e he
      rcases pushStep_mem r t e he with h | h | h | h | h | h | h | h <;> rw [h] <;>
        simp only [podmanLocalOk] <;>
        first
          | rfl
          | (rw [if_pos trivial, List.any_eq_true]; exact ⟨t, ht, by simp⟩)
    · intro r t ht e he
      rcases pullStep_mem host port r t e he with h | h | h | h | h <;> rw [h] <;>
        simp [podmanLocalOk]
    · intro ok
      simp [podmanLocalOk]
    · intro t ok ht
      simp only [podmanLocalOk]
      rw [if_pos trivial, List.any_eq_true]
      exact ⟨t, ht, by simp⟩

/-- Witness for C2: a one-tag run at registry port 7000 executes exactly
the same local podman commands as the same run at port 5000, and a concrete
tagging command of the run addresses `localhost:5000`. -/
theorem claim_C2_fixedLocalAddress_witness :
    localCmds (pushImage oracleAllOk probeReady ["app:1.0"] "user@h" none "7000").1 =
      localCmds (pushImage oracleAllOk probeReady ["app:1.0"] "user@h" none "5000").1 ∧
    podmanLocalOk ["app:1.0"]
      (Event.exec Site.tagging "podman" ["tag", "app:1.0", "localhost:5000/app:1.0"] true) =
      true := by
  have h := claim_C2_fixedLocalAddress oracleAllOk probeReady ["app:1.0"] "user@h" none
    "7000" "5000"
  refine ⟨h.1, ?_⟩
  refine h.2 (Event.exec Site.tagging "podman"
    ["tag", "app:1.0", "localhost:5000/app:1.0"] true) ?_
  rw [pushImage_ok0 oracleAllOk probeReady ["app:1.0"] "user@h" none "7000" rfl]
  rw [pushBody_all_ok oracleAllOk probeReady ["app:1.0"] "user@h" none "7000" rfl
    (fun i h1 h2 => rfl)]
  simp [tagOkEvents, pushOkEvents, pullOkEvents, primeOkEvents]

/-! ### C7: exit code -/

/-- C7: the exit code is 0 exactly when every stage of the main sequence
through remote pull succeeded (registry setup, tunnel readiness, and every
priming, tagging, pushing and remote-pull command); it is 0 or 1 and
nothing else; and it never depends on the oracle results consumed by
cleanup — any two environments agreeing on the main-sequence slots yield
the same exit code. -/
theorem claim_C7_exitCode (o o' : Oracle) (probe : Nat → ProbeResult) (a : Args) :
    ((mainRun o probe a).2 = 0 ↔ allStagesOk o probe a.docker_image a.prime_image) ∧
    ((mainRun o probe a).2 = 0 ∨ (mainRun o probe a).2 = 1) ∧
    ((∀ i, i < mainSlots a.docker_image a.prime_image → o i = o' i) →
      (mainRun o' probe a).2 = (mainRun o probe a).2) := by
  have hm : ∀ oo : Oracle, (mainRun oo probe a).2 =
      if (pushImage oo probe a.docker_image a.ssh_host a.prime_image a.registry_port).2
      then 0 else 1 := fun oo => rfl
  refine ⟨?_, ?_, ?_⟩
  · rw [hm o]
    cases hs : (pushImage o probe a.docker_image a.ssh_host a.prime_image a.registry_port).2
    · rw [if_neg (by simp)]
      constructor
      · intro h
        exact absurd h (by omega)
      · intro hA
        have := (pushImage_true_iff o probe a.docker_image a.ssh_host a.prime_image
          a.registry_port).mpr hA
        rw [hs] at this
        exact absurd this (by simp)
    · rw [if_pos rfl]
      constructor
      · intro _
        exact (pushImage_true_iff o probe a.docker_image a.ssh_host a.prime_image
          a.registry_port).mp hs
      · intro _
        rfl
  · rw [hm o]
    cases (pushImage o probe a.docker_image a.ssh_host a.prime_image a.registry_port).2 <;>
      simp
  · intro hag
    have hiff : (pushImage o' probe a.docker_image a.ssh_host a.prime_image
        a.registry_port).2 = true ↔
        (pushImage o probe a.docker_image a.ssh_host a.prime_image a.registry_port).2 =
          true := by
      rw [pushImage_true_iff, pushImage_true_iff]
      unfold allStagesOk
      constructor
      · rintro ⟨hwv, hall⟩
        refine ⟨hwv, ?_⟩
        intro i hi
        rw [hag i hi]
        exact hall i hi
      · rintro ⟨hwv, hall⟩
        refine ⟨hwv, ?_⟩
        intro i hi
        rw [← hag i hi]
        exact hall i hi
    have heq : (pushImage o' probe a.docker_image a.ssh_host a.prime_image
        a.registry_port).2 =
        (pushImage o probe a.docker_image a.ssh_host a.prime_image a.registry_port).2 := by
      cases h1 : (pushImage o probe a.docker_image a.ssh_host a.prime_image
          a.registry_port).2
      · cases h2 : (pushImage o' probe a.docker_image a.ssh_host a.prime_image
            a.registry_port).2
        · rfl
        · have := hiff.mp h2
          rw [h1] at this
          exact absurd this (by simp)
      · exact hiff.mpr h1
    rw [hm o, hm o', heq]

/-- The parsed arguments of the spec scenario. -/
def argsEx : Args :=
  { ssh_host := "user@h", docker_image := ["app:1.0"], ssh_port := "22",
    registry_port := "5000", prime_image := none }

/-- Witness for C7: with every command succeeding and the registry
answering at once, the exit code is 0; with a failing registry setup it is
1; and failing only the cleanup slots (slot 4 onwards) leaves the exit code
of the successful run unchanged. -/
theorem claim_C7_exitCode_witness :
    (mainRun oracleAllOk probeReady argsEx).2 = 0 ∧
    (mainRun oracleAllFail probeReady argsEx).2 = 1 ∧
    (mainRun (oracleFailAt 4) probeReady argsEx).2 = (mainRun oracleAllOk probeReady argsEx).2 := by
  have h1 := claim_C7_exitCode oracleAllOk (oracleFailAt 4) probeReady argsEx
  have h2 := claim_C7_exitCode oracleAllFail oracleAllFail probeReady argsEx
  refine ⟨?_, ?_, ?_⟩
  · refine h1.1.mpr ⟨rfl, ?_⟩
    intro i hi
    rfl
  · rcases h2.2.1 with h | h
    · exfalso
      rcases h2.1.mp h with ⟨-, hall⟩
      have := hall 0 (by decide)
      simp [oracleAllFail] at this
    · exact h
  · refine h1.2.2 ?_
    intro i hi
    have hm : mainSlots argsEx.docker_image argsEx.prime_image = 4 := rfl
    rw [hm] at hi
    simp only [oracleAllOk, oracleFailAt, CmdResult.mk.injEq, and_true, true_and]
    have : ¬ i = 4 := by omega
    simp [this]

/-! ### C6: stage counts and order -/

theorem cmdsOf_append (l1 l2 : List Event) :
    cmdsOf (l1 ++ l2) = cmdsOf l1 ++ cmdsOf l2 := by
  simp [cmdsOf]

theorem cmdsOf_primeOk (host port : String) (ps : List String) :
    cmdsOf ((ps.map (primeOkEvents host port)).flatten) =
      ps.map fun p => (Site.prime, "ssh", [host, primeCmdStr p port]) := by
  induction ps with
  | nil => rfl
  | cons p ps ih =>
    rw [List.map_cons, List.flatten_cons, cmdsOf_append, ih, List.map_cons]
    rfl

theorem cmdsOf_tagOk (tags : List String) :
    cmdsOf ((tags.map tagOkEvents).flatten) =
      tags.map fun t => (Site.tagging, "podman", ["tag", t, "localhost:5000/" ++ t]) := by
  induction tags with
  | nil => rfl
  | cons t ts ih =>
    rw [List.map_cons, List.flatten_cons, cmdsOf_append, ih, List.map_cons]
    rfl

theorem cmdsOf_pushOk (tags : List String) :
    cmdsOf ((tags.map pushOkEvents).flatten) =
      tags.map fun t => (Site.pushing, "podman", ["push", "localhost:5000/" ++ t]) := by
  induction tags with
  | nil => rfl
  | cons t ts ih =>
    rw [List.map_cons, List.flatten_cons, cmdsOf_append, ih, List.map_cons]
    rfl

theorem cmdsOf_pullOk (host port : String) (tags : List String) :
    cmdsOf ((tags.map (pullOkEvents host port)).flatten) =
      tags.map fun t => (Site.pulling, "ssh", [host, pullCmdStr t port]) := by
  induction tags with
  | nil => rfl
  | cons t ts ih =>
    rw [List.map_cons, List.flatten_cons, cmdsOf_append, ih, List.map_cons]
    rfl

theorem cmdsOf_cleanupTags (o : Oracle) (k : Nat) (l : List String) :
    cmdsOf (cleanupTags o k l).1 =
      l.map fun t => (Site.cleanupImage, "podman", ["image", "rm", "localhost:5000/" ++ t]) := by
  induction l generalizing k with
  | nil => rfl
  | cons t rest ih =>
    have hstep : cmdsOf (cleanupTags o k (t :: rest)).1 =
        (Site.cleanupImage, "podman", ["image", "rm", "localhost:5000/" ++ t]) ::
          cmdsOf (cleanupTags o (k + 1) rest).1 := rfl
    rw [hstep, ih (k + 1), List.map_cons]

theorem cmdsOf_cleanupTrace (o : Oracle) (host : String) (tags : List String) (k : Nat) :
    cmdsOf (cleanupTrace o host tags k).1 =
      (Site.cleanupRegistry, "ssh", [host, cleanupCmdStr]) ::
        tags.map fun t =>
          (Site.cleanupImage, "podman", ["image", "rm", "localhost:5000/" ++ t]) := by
  have hstep : cmdsOf (cleanupTrace o host tags k).1 =
      (Site.cleanupRegistry, "ssh", [host, cleanupCmdStr]) ::
        cmdsOf (cleanupTags o (k + 1) tags).1 := rfl
  rw [hstep, cmdsOf_cleanupTags]

/-- C6 as stated is false: priming executes once per prime-image ENTRY of
the list, not once per DISTINCT prime image.  In a fully successful run
with the duplicated prime list ["a", "a"], two priming invocations are
executed although there is a single distinct prime image. -/
theorem claim_C6_counterexample :
    (cmdsOf (pushImage oracleAllOk probeReady ["t"] "user@h" (some ["a", "a"]) "5000").1).countP
        (fun c => decide (c.1 = Site.prime)) = 2 ∧
    (["a", "a"].dedup).length = 1 ∧
    (pushImage oracleAllOk probeReady ["t"] "user@h" (some ["a", "a"]) "5000").2 = true := by
  refine ⟨by decide, by decide, by decide⟩

/-- C6 (amended): a fully successful run with N target tags executes, in
order: the registry setup, one remote pull+tag+push priming invocation per
prime-list ENTRY (duplicates included, in list order, all before any
target-tag stage), then exactly N tag operations, then exactly N push
operations, then exactly N remote pull-and-retag operations, each in input
order, then cleanup; and a priming failure at entry j aborts the whole
workflow, with no tagging, pushing or pulling command ever executed. -/
theorem claim_C6_stageCounts (o : Oracle) (probe : Nat → ProbeResult) (tags : List String)
    (host : String) (primes : List String) (port : String) :
    ((waitForSshTunnelInit probe 20 1).1 = true →
      (∀ i, (o i).ok = true) →
      cmdsOf (pushImage o probe tags host (some primes) port).1 =
        (Site.registry, "ssh", [host, registryCmdStr port]) ::
          ((primes.map fun p => (Site.prime, "ssh", [host, primeCmdStr p port])) ++
           (tags.map fun t => (Site.tagging, "podman", ["tag", t, "localhost:5000/" ++ t])) ++
           (tags.map fun t => (Site.pushing, "podman", ["push", "localhost:5000/" ++ t])) ++
           (tags.map fun t => (Site.pulling, "ssh", [host, pullCmdStr t port])) ++
           (Site.cleanupRegistry, "ssh", [host, cleanupCmdStr]) ::
             tags.map fun t =>
               (Site.cleanupImage, "podman", ["image", "rm", "localhost:5000/" ++ t])) ∧
      (pushImage o probe tags host (some primes) port).2 = true) ∧
    (∀ j, j < primes.length →
      (waitForSshTunnelInit probe 20 1).1 = true →
      (∀ i, i < 1 + j → (o i).ok = true) →
      (o (1 + j)).ok = false →
      (pushImage o probe tags host (some primes) port).2 = false ∧
      (cmdsOf (pushImage o probe tags host (some primes) port).1).countP
        (fun c =>
          decide (c.1 = Site.tagging ∨ c.1 = Site.pushing ∨ c.1 = Site.pulling)) = 0) := by
  constructor
  · intro hw hall
    rw [pushImage_ok0 o probe tags host (some primes) port (hall 0)]
    have hbody := pushBody_all_ok o probe tags host (some primes) port hw
      (fun i h1 h2 => hall i)
    rw [hbody]
    constructor
    · simp only [cmdsOf_append]
      rw [cmdsOf_primeOk, cmdsOf_tagOk, cmdsOf_pushOk, cmdsOf_pullOk, cmdsOf_cleanupTrace]
      simp [cmdsOf]
    · rfl
  · intro j hj hw hok hfail
    have h0 : (o 0).ok = true := hok 0 (by omega)
    have hs1 := runStage_fail_at o (primeStep host port) (primeOkEvents host port)
      (fun r a h => primeStep_ok host port r a h)
      (fun r a => primeStep_snd host port r a)
      1 j ((some primes).getD []) (by simpa using hj)
      (fun i h1 h2 => hok i (by omega)) hfail
    have hb1 : (runStage o (primeStep host port) 1 ((some primes).getD [])).2.2 = false := by
      rw [hs1]
    have hshape := pushBody_prime_fail o probe tags host (some primes) port 1 hw hb1
    constructor
    · rw [pushImage_ok0 o probe tags host (some primes) port h0, hshape]
    · rw [pushImage_ok0 o probe tags host (some primes) port h0, hshape]
      refine List.countP_eq_zero.mpr ?_
      intro c hc
      rw [cmdsOf] at hc
      rcases List.mem_filterMap.mp hc with ⟨e, he, hfe⟩
      simp only [List.mem_append, List.mem_cons, List.not_mem_nil, or_false] at he
      have hprint : ∀ s : String, e = Event.print s → False := by
        intro s hs
        rw [hs] at hfe
        exact absurd hfe (by simp)
      rcases he with ((h | h) | ((h | h | h | h) | h)) | h
      · exact (hprint _ h).elim
      · rw [h] at hfe
        simp only [Option.some.injEq] at hfe
        subst hfe
        simp
      · exact (hprint _ h).elim
      · rw [h] at hfe
        exact absurd hfe (by simp)
      · exact (hprint _ h).elim
      · exact (hprint _ h).elim
      · rcases runStage_mem o _ 1 _ e h with ⟨i, p, hp, hm⟩
        rcases primeStep_mem host port (o i) p e hm with h1 | h1 | h1 | h1 | h1
        · exact (hprint _ h1).elim
        · rw [h1] at hfe
          simp only [Option.some.injEq] at hfe
          subst hfe
          simp
        · exact (hprint _ h1).elim
        · exact (hprint _ h1).elim
        · exact (hprint _ h1).elim
      · simp only [cleanupTrace, List.mem_cons] at h
        rcases h with h | h | h | h
        · exact (hprint _ h).elim
        · rw [h] at hfe
          simp only [Option.some.injEq] at hfe
          subst hfe
          simp
        · rw [h] at hfe
          exact absurd hfe (by simp)
        · rcases cleanupTags_mem o _ tags e h with ⟨i, t, ht, hm⟩
          rw [hm] at hfe
          simp only [Option.some.injEq] at hfe
          subst hfe
          simp

/-- Witness for C6: the fully successful run with one target tag and two
(duplicate) prime entries executes the registry setup, two priming
invocations, one tag, one push, one remote pull, then cleanup, in that
order, and exits successfully; failing the second priming entry (slot 2)
aborts with no tagging command. -/
theorem claim_C6_stageCounts_witness :
    cmdsOf (pushImage oracleAllOk probeReady ["t"] "user@h" (some ["a", "a"]) "5000").1 =
      (Site.registry, "ssh", ["user@h", registryCmdStr "5000"]) ::
        ((["a", "a"].map fun p => (Site.prime, "ssh", ["user@h", primeCmdStr p "5000"])) ++
         (["t"].map fun t => (Site.tagging, "podman", ["tag", t, "localhost:5000/" ++ t])) ++
         (["t"].map fun t => (Site.pushing, "podman", ["push", "localhost:5000/" ++ t])) ++
         (["t"].map fun t => (Site.pulling, "ssh", ["user@h", pullCmdStr t "5000"])) ++
         (Site.cleanupRegistry, "ssh", ["user@h", cleanupCmdStr]) ::
           ["t"].map fun t =>
             (Site.cleanupImage, "podman", ["image", "rm", "localhost:5000/" ++ t])) ∧
    (pushImage (oracleFailAt 2) probeReady ["t"] "user@h" (some ["a", "a"]) "5000").2 =
      false := by
  constructor
  · exact ((claim_C6_stageCounts oracleAllOk probeReady ["t"] "user@h" ["a", "a"]
      "5000").1 rfl (fun i => rfl)).1
  · exact ((claim_C6_stageCounts (oracleFailAt 2) probeReady ["t"] "user@h" ["a", "a"]
      "5000").2 1 (by decide) rfl (by decide) (by decide)).1

/-! ### C3: failure in the pushing stage -/

theorem pushView_append (l1 l2 : List Event) :
    pushView (l1 ++ l2) = pushView l1 ++ pushView l2 := by
  simp [pushView]

theorem pushView_pushOk (l : List String) :
    pushView ((l.map pushOkEvents).flatten) =
      l.map fun t => (["push", "localhost:5000/" ++ t], true) := by
  induction l with
  | nil => rfl
  | cons t ts ih =>
    rw [List.map_cons, List.flatten_cons, pushView_append, ih, List.map_cons]
    rfl

theorem pushView_primeStage_nil (o : Oracle) (host port : String) (k : Nat)
    (l : List String) :
    pushView (runStage o (primeStep host port) k l).1 = [] := by
  rw [pushView, List.filterMap_eq_nil_iff]
  intro e he
  rcases runStage_mem o _ k _ e he with ⟨i, p, hp, hm⟩
  rcases primeStep_mem host port (o i) p e hm with h | h | h | h | h <;> rw [h]

theorem pushView_tagStage_nil (o : Oracle) (k : Nat) (l : List String) :
    pushView (runStage o tagStep k l).1 = [] := by
  rw [pushView, List.filterMap_eq_nil_iff]
  intro e he
  rcases runStage_mem o _ k _ e he with ⟨i, t, ht, hm⟩
  rcases tagStep_mem (o i) t e hm with h | h | h | h <;> rw [h]

theorem pushView_cleanupTrace_nil (o : Oracle) (host : String) (tags : List String)
    (k : Nat) :
    pushView (cleanupTrace o host tags k).1 = [] := by
  rw [pushView, List.filterMap_eq_nil_iff]
  intro e he
  simp only [cleanupTrace, List.mem_cons] at he
  rcases he with h | h | h | h
  · rw [h]
  · rw [h]
  · rw [h]
  · rcases cleanupTags_mem o (k + 1) tags e h with ⟨i, t, ht, hm⟩
    rw [hm]

theorem pushView_pushStep_fail (r : CmdResult) (t : String) (hr : r.ok = false) :
    pushView (pushStep r t).1 = [(["push", "localhost:5000/" ++ t], false)] := by
  simp [pushStep, hr, errorPrints, pushView]

theorem cmdsOf_stage_countP {α : Type} (o : Oracle)
    (step : CmdResult → α → List Event × Bool) (s : Site)
    (p : Site × String × List String → Bool)
    (hstep : ∀ r a, ∀ e ∈ (step r a).1, execSite e = none ∨ execSite e = some s)
    (hp : ∀ exe args, p (s, exe, args) = false)
    (k : Nat) (l : List α) :
    (cmdsOf (runStage o step k l).1).countP p = 0 := by
  refine List.countP_eq_zero.mpr ?_
  intro c hc
  rw [cmdsOf] at hc
  rcases List.mem_filterMap.mp hc with ⟨e, he, hfe⟩
  rcases runStage_mem o _ k _ e he with ⟨i, a, ha, hm⟩
  rcases hstep (o i) a e hm with h | h
  · cases e with
    | exec s' exe args ok => simp [execSite] at h
    | spawn x a2 => exact absurd hfe (by simp)
    | terminate => exact absurd hfe (by simp)
    | print m => exact absurd hfe (by simp)
  · cases e with
    | exec s' exe args ok =>
      simp only [execSite, Option.some.injEq] at h
      subst h
      simp only [Option.some.injEq] at hfe
      subst hfe
      simp [hp]
    | spawn x a2 => exact absurd hfe (by simp)
    | terminate => exact absurd hfe (by simp)
    | print m => exact absurd hfe (by simp)

theorem cmdsOf_cleanupTrace_countP (o : Oracle) (host : String) (tags : List String)
    (k : Nat) (p : Site × String × List String → Bool)
    (hp1 : p (Site.cleanupRegistry, "ssh", [host, cleanupCmdStr]) = false)
    (hp2 : ∀ t, p (Site.cleanupImage, "podman",
      ["image", "rm", "localhost:5000/" ++ t]) = false) :
    (cmdsOf (cleanupTrace o host tags k).1).countP p = 0 := by
  rw [cmdsOf_cleanupTrace]
  refine List.countP_eq_zero.mpr ?_
  intro c hc
  rcases List.mem_cons.mp hc with h | h
  · rw [h]
    simp [hp1]
  · rcases List.mem_map.mp h with ⟨t, ht, hteq⟩
    rw [← hteq]
    simp [hp2]

/-- C3: with the tunnel ready and every command before the pushing stage
succeeding, if the push command fails at tag index k then the push
executions of the run are exactly: tags 0..k-1 pushed successfully in input
order, tag k pushed and failed, no later tag ever pushed; no remote
pull-and-retag command is ever invoked; the push-specific remediation
message naming the insecure-registry setting is printed; and the workflow
reports failure. -/
theorem claim_C3_pushFailure (o : Oracle) (probe : Nat → ProbeResult) (tags : List String)
    (host : String) (prime : Option (List String)) (port : String) (k : Nat)
    (hready : (waitForSshTunnelInit probe 20 1).1 = true)
    (hk : k < tags.length)
    (hok : ∀ i, i < 1 + (prime.getD []).length + tags.length + k → (o i).ok = true)
    (hfail : (o (1 + (prime.getD []).length + tags.length + k)).ok = false) :
    pushView (pushImage o probe tags host prime port).1 =
      (tags.take k).map (fun t => (["push", "localhost:5000/" ++ t], true)) ++
        [(["push", "localhost:5000/" ++ tags.get ⟨k, hk⟩], false)] ∧
    (cmdsOf (pushImage o probe tags host prime port).1).countP
      (fun c => decide (c.1 = Site.pulling)) = 0 ∧
    Event.print
      "Error Pushing Image: Ensure localhost:5000 is added to your insecure registries." ∈
      (pushImage o probe tags host prime port).1 ∧
    (pushImage o probe tags host prime port).2 = false := by
  have h0 : (o 0).ok = true := hok 0 (by omega)
  have hb1 : (runStage o (primeStep host port) 1 (prime.getD [])).2.2 = true := by
    refine (runStage_succ_iff o (primeStep host port)
      (fun r a => primeStep_snd host port r a) 1 (prime.getD [])).mpr ?_
    intro j hj
    exact hok (1 + j) (by omega)
  have E1 : (runStage o (primeStep host port) 1 (prime.getD [])).2.1 =
      1 + (prime.getD []).length :=
    runStage_succ_end o _ 1 _ hb1
  have hb2 : (runStage o tagStep
      (runStage o (primeStep host port) 1 (prime.getD [])).2.1 tags).2.2 = true := by
    refine (runStage_succ_iff o tagStep (fun r a => tagStep_snd r a) _ tags).mpr ?_
    intro j hj
    rw [E1]
    exact hok (1 + (prime.getD []).length + j) (by omega)
  have E2 : (runStage o tagStep
      (runStage o (primeStep host port) 1 (prime.getD [])).2.1 tags).2.1 =
      1 + (prime.getD []).length + tags.length := by
    rw [runStage_succ_end o _ _ _ hb2, E1]
  have hs3 := runStage_fail_at o pushStep pushOkEvents
    (fun r a h => pushStep_ok r a h) (fun r a => pushStep_snd r a)
    (runStage o tagStep
      (runStage o (primeStep host port) 1 (prime.getD [])).2.1 tags).2.1 k tags hk
    (fun i hi1 hi2 => hok i (by rw [E2] at hi2; omega))
    (by rw [E2]; exact hfail)
  have hs3e : (runStage o pushStep
      (runStage o tagStep
        (runStage o (primeStep host port) 1 (prime.getD [])).2.1 tags).2.1 tags).1 =
      ((tags.take k).map pushOkEvents).flatten ++
        (pushStep (o ((runStage o tagStep
          (runStage o (primeStep host port) 1 (prime.getD [])).2.1 tags).2.1 + k))
          (tags.get ⟨k, hk⟩)).1 := by
    rw [hs3]
  have hb3 : (runStage o pushStep
      (runStage o tagStep
        (runStage o (primeStep host port) 1 (prime.getD [])).2.1 tags).2.1 tags).2.2 =
      false := by
    rw [hs3]
  have hrfail : (o ((runStage o tagStep
      (runStage o (primeStep host port) 1 (prime.getD [])).2.1 tags).2.1 + k)).ok =
      false := by
    rw [E2]
    exact hfail
  have hshape := pushBody_push_fail o probe tags host prime port 1 hready hb1 hb2 hb3
  refine ⟨?_, ?_, ?_, ?_⟩
  · rw [pushImage_ok0 o probe tags host prime port h0, hshape, hs3e]
    simp only [pushView_append]
    rw [pushView_primeStage_nil, pushView_tagStage_nil, pushView_cleanupTrace_nil]
    rw [pushView_pushOk, pushView_pushStep_fail _ _ hrfail]
    simp [pushView]
  · rw [pushImage_ok0 o probe tags host prime port h0, hshape, hs3e]
    simp only [cmdsOf_append, List.countP_append]
    have z1 : (cmdsOf (runStage o (primeStep host port) 1 (prime.getD [])).1).countP
        (fun c => decide (c.1 = Site.pulling)) = 0 := by
      refine cmdsOf_stage_countP o _ Site.prime _ ?_ ?_ 1 (prime.getD [])
      · intro r a e he
        exact primeStep_sites host port r a e he
      · intro exe args
        simp
    have z2 : (cmdsOf (runStage o tagStep
        (runStage o (primeStep host port) 1 (prime.getD [])).2.1 tags).1).countP
        (fun c => decide (c.1 = Site.pulling)) = 0 := by
      refine cmdsOf_stage_countP o _ Site.tagging _ ?_ ?_ _ tags
      · intro r a e he
        exact tagStep_sites r a e he
      · intro exe args
        simp
    have z3 : (cmdsOf (((tags.take k).map pushOkEvents).flatten)).countP
        (fun c => decide (c.1 = Site.pulling)) = 0 := by
      rw [cmdsOf_pushOk]
      refine List.countP_eq_zero.mpr ?_
      intro c hc
      rcases List.mem_map.mp hc with ⟨t, ht, hteq⟩
      rw [← hteq]
      simp
    have z4 : (cmdsOf (pushStep (o ((runStage o tagStep
        (runStage o (primeStep host port) 1 (prime.getD [])).2.1 tags).2.1 + k))
        (tags.get ⟨k, hk⟩)).1).countP
        (fun c => decide (c.1 = Site.pulling)) = 0 := by
      have hce : cmdsOf (pushStep (o ((runStage o tagStep
          (runStage o (primeStep host port) 1 (prime.getD [])).2.1 tags).2.1 + k))
          (tags.get ⟨k, hk⟩)).1 =
          [(Site.pushing, "podman", ["push", "localhost:5000/" ++ tags.get ⟨k, hk⟩])] := by
        simp [pushStep, hrfail, errorPrints, cmdsOf]
      rw [hce]
      rfl
    have zc : (cmdsOf (cleanupTrace o host tags
        (mainEnd o probe tags host prime port)).1).countP
        (fun c => decide (c.1 = Site.pulling)) = 0 := by
      refine cmdsOf_cleanupTrace_countP o host tags _ _ ?_ ?_
      · rfl
      · intro t
        rfl
    rw [z1, z2, z3, z4, zc]
    simp [cmdsOf]
  · have hmem : Event.print
        "Error Pushing Image: Ensure localhost:5000 is added to your insecure registries." ∈
        (pushStep (o ((runStage o tagStep
          (runStage o (primeStep host port) 1 (prime.getD [])).2.1 tags).2.1 + k))
          (tags.get ⟨k, hk⟩)).1 := by
      simp [pushStep, hrfail, errorPrints]
    rw [pushImage_ok0 o probe tags host prime port h0, hshape, hs3e]
    refine List.mem_append.mpr (Or.inl ?_)
    refine List.mem_append.mpr (Or.inr ?_)
    refine List.mem_append.mpr (Or.inr ?_)
    exact List.mem_append.mpr (Or.inr hmem)
  · rw [pushImage_ok0 o probe tags host prime port h0, hshape]

theorem claim_C3_pushFailure_witness :
    pushView (pushImage (oracleFailAt 5) probeReady ["t1", "t2"] "user@h" (some ["a"])
        "5000").1 =
      [(["push", "localhost:5000/t1"], true), (["push", "localhost:5000/t2"], false)] ∧
    Event.print
      "Error Pushing Image: Ensure localhost:5000 is added to your insecure registries." ∈
      (pushImage (oracleFailAt 5) probeReady ["t1", "t2"] "user@h" (some ["a"]) "5000").1 ∧
    (pushImage (oracleFailAt 5) probeReady ["t1", "t2"] "user@h" (some ["a"]) "5000").2 =
      false := by
  have h := claim_C3_pushFailure (oracleFailAt 5) probeReady ["t1", "t2"] "user@h"
    (some ["a"]) "5000" 1 rfl (by decide) (by decide) (by decide)
  refine ⟨?_, h.2.2.1, h.2.2.2⟩
  rw [h.1]
  rfl

end DockerPushSsh
